import Mathlib

/-!
# Pooled storage: pool lifecycle, union composition and quota statistics

A shallow embedding of `backend/internal/{models,database,rclone,services}`.

* The SQLite database is an explicit value `DB` (three tables as lists of rows, in
  insertion order).  A statement fails when a declared constraint is violated, or when the
  caller-supplied I/O outcome of that statement is an error.
* The external tools (`rclone`, `fusermount`, `umount`, `mountpoint`) and `os.MkdirAll`
  are an oracle `World`; every function that runs commands also returns the list of
  commands it ran, in order.
* A Go `error` is an `Option String` (`none` is `nil`); `fmt.Errorf` is concatenation.
* `uuid.New()` and `time.Now()` readings are arguments.
-/

namespace PooledStorage

/-! ## models.go -/

/-- Go `error`: `none` is `nil`, `some msg` is an error whose text is `msg`. -/
abbrev Error := Option String

/-- A row of table `accounts` as read by the services (`models.Account`; the credential
columns are not read or written by any function embedded here). -/
structure Account where
  ID : String
  Name : String
  Type_ : String
  Email : String
  QuotaTotal : Int
  QuotaUsed : Int
  Status : String
  CreatedAt : Nat
  UpdatedAt : Nat
deriving DecidableEq, Repr

/-- A row of table `storage_pools`; `mount_path` is the only column the program leaves
NULL. -/
structure PoolRow where
  ID : String
  Name : String
  Strategy : String
  EnableChunker : Bool
  AllowLargeFiles : Bool
  ChunkSize : String
  MountPath : Option String
  Status : String
  CreatedAt : Nat
  UpdatedAt : Nat
deriving DecidableEq, Repr

/-- A row of table `pool_accounts` (`models.PoolAccount`). -/
structure PoolAccount where
  PoolID : String
  AccountID : String
  Priority : Int
deriving DecidableEq, Repr

/-- The in-memory `models.StoragePool` built by `GetPool` / `CreatePool`. -/
structure StoragePool where
  ID : String
  Name : String
  Strategy : String
  EnableChunker : Bool
  AllowLargeFiles : Bool
  ChunkSize : String
  MountPath : String
  Status : String
  Accounts : List Account
  CreatedAt : Nat
  UpdatedAt : Nat
deriving DecidableEq, Repr

/-- The request body `models.CreatePoolRequest`. -/
structure CreatePoolRequest where
  Name : String
  Strategy : String
  EnableChunker : Bool
  AllowLargeFiles : Bool
  ChunkSize : String
  AccountIDs : List String
deriving DecidableEq, Repr

/-! ## database/db.go: the tables -/

/-- The database contents: the three tables the services touch, rows in insertion order. -/
structure DB where
  accounts : List Account
  storage_pools : List PoolRow
  pool_accounts : List PoolAccount
deriving DecidableEq, Repr

/-- The database right after `createTables`. -/
def DB.empty : DB := ⟨[], [], []⟩

/-! ## The external world -/

/-- An argv: program name followed by its arguments (`exec.Command`). -/
abbrev Cmd := List String

/-- What running a command gives: the error of `Run` / `CombinedOutput` and the combined
output text. -/
structure CmdResult where
  err : Error
  output : String
deriving DecidableEq, Repr

/-- The environment of one service call: the result of every command it may run and of
`os.MkdirAll` on every path. -/
structure World where
  run : Cmd → CmdResult
  mkdirAll : String → Error

/-- A world in which every command and every `MkdirAll` succeeds. -/
def World.allOk : World := ⟨fun _ => ⟨none, ""⟩, fun _ => none⟩

/-! ## Go's `path/filepath.Join` (Unix) -/

/-- Splits a path at every slash. -/
def splitSlash : List Char → List (List Char)
  | [] => [[]]
  | c :: cs =>
    match splitSlash cs with
    | [] => [[]]
    | x :: xs => if c = '/' then [] :: x :: xs else (c :: x) :: xs

/-- The element-wise part of `filepath.Clean`: drops empty and `.` elements, cancels an
inner `..` against the element before it, drops a leading `..` of a rooted path.  The
first argument is the stack of kept elements, last kept first. -/
def cleanElems (rooted : Bool) : List (List Char) → List (List Char) → List (List Char)
  | acc, [] => acc.reverse
  | acc, c :: cs =>
    if c = [] ∨ c = ['.'] then cleanElems rooted acc cs
    else if c = ['.', '.'] then
      match acc with
      | [] => if rooted then cleanElems rooted [] cs else cleanElems rooted [c] cs
      | a :: acc' =>
        if a = ['.', '.'] then cleanElems rooted (c :: a :: acc') cs
        else cleanElems rooted acc' cs
    else cleanElems rooted (c :: acc) cs

/-- Go's `filepath.Clean` on Unix. -/
def filepathClean (p : String) : String :=
  if p = "" then "."
  else
    let rooted : Bool := p.data.head? = some '/'
    let body := String.mk (List.intercalate ['/'] (cleanElems rooted [] (splitSlash p.data)))
    if rooted then "/" ++ body
    else if body = "" then "." else body

/-- Go's `filepath.Join` of two elements on Unix. -/
def filepathJoin (a b : String) : String :=
  if a ≠ "" then filepathClean (a ++ "/" ++ b)
  else if b ≠ "" then filepathClean b
  else ""

/-! ## rclone/manager.go -/

/-- The `rclone.Manager`: the connector configuration file and the mount root. -/
structure Manager where
  configPath : String
  mountPath : String
deriving DecidableEq, Repr

/-- `NewManager` given the values of `RCLONE_CONFIG_PATH`, `HOME` and `MOUNT_PATH`. -/
def NewManager (envConfigPath envHome envMountPath : String) : Manager :=
  { configPath :=
      if envConfigPath = "" then filepathJoin envHome ".config/rclone/rclone.conf"
      else envConfigPath
    mountPath := if envMountPath = "" then "/mnt/pooled-storage" else envMountPath }

/-- The name of an account's remote followed by a colon, `fmt.Sprintf("%s_%s:", ...)`. -/
def remoteName (account : Account) : String :=
  account.Type_ ++ "_" ++ account.ID ++ ":"

/-- The name of an account's chunk adapter, `fmt.Sprintf("chunk_%s", account.ID)`. -/
def chunkRemote (account : Account) : String :=
  "chunk_" ++ account.ID

/-- The chunk-adapter creation command of `CreateUnion`. -/
def chunkerCmd (m : Manager) (pool : StoragePool) (account : Account) : Cmd :=
  ["rclone", "config", "create", chunkRemote account, "chunker",
   "--chunker-remote", remoteName account,
   "--chunker-chunk-size", pool.ChunkSize,
   "--config", m.configPath]

/-- The `for _, account := range pool.Accounts` loop of `CreateUnion`: given the accounts
still to visit and the upstreams collected so far, returns the commands run and either
the error of the early return or the final upstream list. -/
def collectUpstreams (m : Manager) (w : World) (pool : StoragePool) :
    List Account → List String → List Cmd × Except String (List String)
  | [], upstreams => ([], .ok upstreams)
  | account :: rest, upstreams =>
    if pool.EnableChunker then
      match (w.run (chunkerCmd m pool account)).err with
      | some e => ([chunkerCmd m pool account], .error ("failed to create chunker: " ++ e))
      | none =>
        let r := collectUpstreams m w pool rest (upstreams ++ [chunkRemote account ++ ":"])
        (chunkerCmd m pool account :: r.1, r.2)
    else collectUpstreams m w pool rest (upstreams ++ [remoteName account])

/-- The `switch pool.Strategy` of `CreateUnion`. -/
def policyArgs (strategy : String) : List String :=
  if strategy = "union" then
    ["--union-action-policy", "epall", "--union-create-policy", "epmfs",
     "--union-search-policy", "ff"]
  else if strategy = "eplus" then
    ["--union-action-policy", "epall", "--union-create-policy", "eplus",
     "--union-search-policy", "ff"]
  else if strategy = "epff" then
    ["--union-action-policy", "epall", "--union-create-policy", "epff",
     "--union-search-policy", "ff"]
  else if strategy = "mirror" then
    ["--union-action-policy", "all", "--union-create-policy", "all",
     "--union-search-policy", "ff"]
  else
    ["--union-action-policy", "epall", "--union-create-policy", "epmfs",
     "--union-search-policy", "ff"]

/-- The union-creation command of `CreateUnion` for a given upstream list. -/
def unionCmd (m : Manager) (pool : StoragePool) (upstreams : List String) : Cmd :=
  "rclone" :: (["config", "create", "union_" ++ pool.ID, "union",
    "--union-upstreams", " ".intercalate upstreams,
    "--config", m.configPath] ++ policyArgs pool.Strategy)

/-- `Manager.CreateUnion`: the commands run, in order, and the returned error. -/
def CreateUnion (m : Manager) (w : World) (pool : StoragePool) : List Cmd × Error :=
  if pool.Accounts.length = 0 then ([], some "no accounts in pool")
  else
    match collectUpstreams m w pool pool.Accounts [] with
    | (cmds, .error e) => (cmds, some e)
    | (cmds, .ok upstreams) =>
      let r := w.run (unionCmd m pool upstreams)
      match r.err with
      | some e =>
        (cmds ++ [unionCmd m pool upstreams],
          some ("failed to create union: " ++ e ++ " - " ++ r.output))
      | none => (cmds ++ [unionCmd m pool upstreams], none)

/-- `Manager.IsMounted`. -/
def IsMounted (w : World) (path : String) : Bool :=
  (w.run ["mountpoint", "-q", path]).err = none

/-- The mount command of `MountPool`. -/
def mountCmd (m : Manager) (pool : StoragePool) : Cmd :=
  "rclone" :: (["mount", "union_" ++ pool.ID ++ ":", filepathJoin m.mountPath pool.ID,
    "--config", m.configPath, "--allow-other", "--vfs-cache-mode", "writes", "--daemon"]
    ++ (if pool.AllowLargeFiles then ["--vfs-cache-max-size", "50G"] else []))

/-- `Manager.MountPool`. -/
def MountPool (m : Manager) (w : World) (pool : StoragePool) : List Cmd × Error :=
  let poolMountPath := filepathJoin m.mountPath pool.ID
  match w.mkdirAll poolMountPath with
  | some e => ([], some ("failed to create mount directory: " ++ e))
  | none =>
    if IsMounted w poolMountPath then
      ([["mountpoint", "-q", poolMountPath]], some "already mounted")
    else
      let r := w.run (mountCmd m pool)
      match r.err with
      | some e =>
        ([["mountpoint", "-q", poolMountPath], mountCmd m pool],
          some ("failed to mount: " ++ e ++ " - " ++ r.output))
      | none => ([["mountpoint", "-q", poolMountPath], mountCmd m pool], none)

/-- `Manager.UnmountPool`: `fusermount -u`, then `umount` when that fails. -/
def UnmountPool (m : Manager) (w : World) (pool : StoragePool) : List Cmd × Error :=
  let poolMountPath := filepathJoin m.mountPath pool.ID
  match (w.run ["fusermount", "-u", poolMountPath]).err with
  | some _ =>
    ([["fusermount", "-u", poolMountPath], ["umount", poolMountPath]],
      (w.run ["umount", poolMountPath]).err)
  | none => ([["fusermount", "-u", poolMountPath]], none)

/-- `Manager.DeleteUnion`. -/
def DeleteUnion (m : Manager) (w : World) (poolID : String) : List Cmd × Error :=
  ([["rclone", "config", "delete", "union_" ++ poolID, "--config", m.configPath]],
    (w.run ["rclone", "config", "delete", "union_" ++ poolID, "--config", m.configPath]).err)

/-- The quota command of `GetQuota`. -/
def aboutCmd (m : Manager) (accountID accountType : String) : Cmd :=
  ["rclone", "about", accountType ++ "_" ++ accountID ++ ":", "--json", "--config",
   m.configPath]

/-- `Manager.GetQuota`: the decoded `(total, used)` pair or the error; `unmarshal` is
`json.Unmarshal` into the `total`/`used` struct, applied to the standard output. -/
def GetQuota (m : Manager) (w : World) (unmarshal : String → Except String (Int × Int))
    (accountID accountType : String) : Except String (Int × Int) :=
  match (w.run (aboutCmd m accountID accountType)).err with
  | some e => .error e
  | none => unmarshal (w.run (aboutCmd m accountID accountType)).output

/-! ## services/storage_service.go -/

/-- The `StorageService`: its connector manager, and whether its database connection
enforces the `FOREIGN KEY` clauses of the schema. -/
structure StorageService where
  rclone : Manager
  foreignKeys : Bool
deriving DecidableEq, Repr

/-- The environment of one `db.Exec` whose arguments include `time.Now()`: the I/O error
of the statement (`none` when the database executes it) and the clock reading. -/
structure Exec where
  err : Error
  now : Nat
deriving DecidableEq, Repr

/-- The I/O errors of the two queries of `GetPool`: the `storage_pools` row query and the
`GetPoolAccounts` join. -/
structure GetPoolQ where
  pool : Error
  accounts : Error
deriving DecidableEq, Repr

/-- The environment of the statements of `StartPool`. -/
structure StartQ where
  get : GetPoolQ
  starting : Exec
  error : Exec
  running : Exec
deriving DecidableEq, Repr

/-- The environment of the statements of `StopPool`. -/
structure StopQ where
  get : GetPoolQ
  stopped : Exec
deriving DecidableEq, Repr

/-- The environment of the statements of `DeletePool`, those of its inner `StopPool`
included. -/
structure DeleteQ where
  get : GetPoolQ
  stop : StopQ
  delete : Error
deriving DecidableEq, Repr

/-- The environment of the statements of `CreatePool`: `Begin`, the pool insert, the
membership insert of each loop index, `Commit`. -/
structure CreateQ where
  begin_ : Error
  insertPool : Error
  insertAccount : Nat → Error
  commit : Error

/-- What a lifecycle call leaves behind: the database, the commands it ran in order, and
the returned error. -/
structure Result where
  db : DB
  cmds : List Cmd
  err : Error
deriving DecidableEq, Repr

/-- `ORDER BY pa.priority` (rows of equal priority keep their table order). -/
def orderByPriority (rows : List PoolAccount) : List PoolAccount :=
  rows.insertionSort (fun a b => a.Priority ≤ b.Priority)

/-- `StorageService.GetPoolAccounts`: the accounts joined to the pool's membership rows,
ordered by priority. -/
def GetPoolAccounts (db : DB) (q : Error) (poolID : String) : Except String (List Account) :=
  match q with
  | some e => .error e
  | none =>
    .ok ((orderByPriority (db.pool_accounts.filter (fun pa => pa.PoolID = poolID))).flatMap
      (fun pa => db.accounts.filter (fun a => a.ID = pa.AccountID)))

/-- The row `SELECT ... FROM storage_pools WHERE id = ?` gives to `QueryRow`. -/
def DB.findPool (db : DB) (id : String) : Option PoolRow :=
  db.storage_pools.find? (fun p => p.ID = id)

/-- `StorageService.GetPool`: the row with the given id, with its accounts (an error of
`GetPoolAccounts` is discarded and leaves `Accounts` nil). -/
def GetPool (db : DB) (q : GetPoolQ) (id : String) : Except String StoragePool :=
  match q.pool with
  | some e => .error e
  | none =>
    match db.findPool id with
    | none => .error "sql: no rows in result set"
    | some row =>
      .ok { ID := row.ID, Name := row.Name, Strategy := row.Strategy,
            EnableChunker := row.EnableChunker, AllowLargeFiles := row.AllowLargeFiles,
            ChunkSize := row.ChunkSize,
            MountPath := match row.MountPath with
              | some p => p
              | none => "",
            Status := row.Status,
            Accounts := match GetPoolAccounts db q.accounts row.ID with
              | .ok accounts => accounts
              | .error _ => [],
            CreatedAt := row.CreatedAt, UpdatedAt := row.UpdatedAt }

/-- `StorageService.updatePoolStatus`: `UPDATE storage_pools SET status, updated_at WHERE
id`; the error of the statement is dropped. -/
def updatePoolStatus (db : DB) (q : Exec) (id status : String) : DB :=
  match q.err with
  | some _ => db
  | none =>
    { db with storage_pools := db.storage_pools.map (fun p =>
        if p.ID = id then { p with Status := status, UpdatedAt := q.now } else p) }

/-- The last statement of `StartPool`: `UPDATE storage_pools SET status = "running",
mount_path, updated_at WHERE id`. -/
def setRunning (db : DB) (id mountPath : String) (now : Nat) : DB :=
  { db with storage_pools := db.storage_pools.map (fun p =>
      if p.ID = id then
        { p with Status := "running", MountPath := some mountPath, UpdatedAt := now }
      else p) }

/-- The last statement of `StopPool`: `UPDATE storage_pools SET status = "stopped",
mount_path = NULL, updated_at WHERE id`. -/
def setStopped (db : DB) (id : String) (now : Nat) : DB :=
  { db with storage_pools := db.storage_pools.map (fun p =>
      if p.ID = id then { p with Status := "stopped", MountPath := none, UpdatedAt := now }
      else p) }

/-- `StorageService.StartPool`. -/
def StartPool (s : StorageService) (w : World) (q : StartQ) (db : DB) (id : String) :
    Result :=
  match GetPool db q.get id with
  | .error e => ⟨db, [], some e⟩
  | .ok pool =>
    if pool.Status = "running" then ⟨db, [], some "pool already running"⟩
    else
      let db1 := updatePoolStatus db q.starting id "starting"
      match CreateUnion s.rclone w pool with
      | (c1, some e) =>
        ⟨updatePoolStatus db1 q.error id "error", c1, some ("failed to create union: " ++ e)⟩
      | (c1, none) =>
        match MountPool s.rclone w pool with
        | (c2, some e) =>
          ⟨updatePoolStatus db1 q.error id "error", c1 ++ c2,
            some ("failed to mount pool: " ++ e)⟩
        | (c2, none) =>
          match q.running.err with
          | some e => ⟨db1, c1 ++ c2, some e⟩
          | none =>
            ⟨setRunning db1 id ("/mnt/pooled-storage/" ++ pool.ID) q.running.now,
              c1 ++ c2, none⟩

/-- `StorageService.StopPool`. -/
def StopPool (s : StorageService) (w : World) (q : StopQ) (db : DB) (id : String) :
    Result :=
  match GetPool db q.get id with
  | .error e => ⟨db, [], some e⟩
  | .ok pool =>
    if pool.Status ≠ "running" then ⟨db, [], some "pool not running"⟩
    else
      match UnmountPool s.rclone w pool with
      | (c1, some e) => ⟨db, c1, some ("failed to unmount pool: " ++ e)⟩
      | (c1, none) =>
        let c2 := (DeleteUnion s.rclone w pool.ID).1
        match q.stopped.err with
        | some e => ⟨db, c1 ++ c2, some e⟩
        | none => ⟨setStopped db id q.stopped.now, c1 ++ c2, none⟩

/-- `DELETE FROM storage_pools WHERE id = ?`; the membership rows of the pool go with it
when the connection enforces `ON DELETE CASCADE`. -/
def deletePoolRow (foreignKeys : Bool) (db : DB) (id : String) : DB :=
  { db with
    storage_pools := db.storage_pools.filter (fun p => p.ID ≠ id)
    pool_accounts :=
      if foreignKeys then db.pool_accounts.filter (fun pa => pa.PoolID ≠ id)
      else db.pool_accounts }

/-- `StorageService.DeletePool`. -/
def DeletePool (s : StorageService) (w : World) (q : DeleteQ) (db : DB) (id : String) :
    Result :=
  match GetPool db q.get id with
  | .error e => ⟨db, [], some e⟩
  | .ok pool =>
    if pool.Status = "running" then
      match StopPool s w q.stop db id with
      | ⟨db1, c1, some e⟩ => ⟨db1, c1, some e⟩
      | ⟨db1, c1, none⟩ =>
        match q.delete with
        | some e => ⟨db1, c1, some e⟩
        | none => ⟨deletePoolRow s.foreignKeys db1 id, c1, none⟩
    else
      match q.delete with
      | some e => ⟨db, [], some e⟩
      | none => ⟨deletePoolRow s.foreignKeys db id, [], none⟩

/-- One `INSERT INTO pool_accounts`: refused when the pair `(pool_id, account_id)` is
already present (primary key) and, on a connection that enforces foreign keys, when the
pool or the account does not exist. -/
def insertPoolAccount (foreignKeys : Bool) (db : DB) (row : PoolAccount) : Except String DB :=
  if db.pool_accounts.any (fun pa => pa.PoolID = row.PoolID ∧ pa.AccountID = row.AccountID)
  then .error "UNIQUE constraint failed: pool_accounts.pool_id, pool_accounts.account_id"
  else if foreignKeys ∧
      ¬ (db.storage_pools.any (fun p => p.ID = row.PoolID) ∧
         db.accounts.any (fun a => a.ID = row.AccountID))
  then .error "FOREIGN KEY constraint failed"
  else .ok { db with pool_accounts := db.pool_accounts ++ [row] }

/-- `INSERT INTO storage_pools` of `CreatePool` (the `mount_path` column is not listed
and stays NULL): refused when the id is already present (primary key). -/
def insertPool (db : DB) (row : PoolRow) : Except String DB :=
  if db.storage_pools.any (fun p => p.ID = row.ID)
  then .error "UNIQUE constraint failed: storage_pools.id"
  else .ok { db with storage_pools := db.storage_pools ++ [row] }

/-- The pool row `CreatePool` inserts. -/
def newPoolRow (id : String) (createdAt updatedAt : Nat) (req : CreatePoolRequest) : PoolRow :=
  ⟨id, req.Name, req.Strategy, req.EnableChunker, req.AllowLargeFiles,
    if req.ChunkSize = "" then "100M" else req.ChunkSize, none, "stopped", createdAt,
    updatedAt⟩

/-- The `for i, accountID := range req.AccountIDs` loop of `CreatePool`, from index `i`. -/
def insertAccounts (foreignKeys : Bool) (q : Nat → Error) (poolID : String) :
    List String → Nat → DB → Except String DB
  | [], _, db => .ok db
  | accountID :: rest, i, db =>
    match q i with
    | some e => .error e
    | none =>
      match insertPoolAccount foreignKeys db ⟨poolID, accountID, (i : Int)⟩ with
      | .error e => .error e
      | .ok db1 => insertAccounts foreignKeys q poolID rest (i + 1) db1

/-- `StorageService.CreatePool`, given the generated id and the two clock readings: the
database after the call (the transaction is rolled back on every error path) and the
returned pool or error. -/
def CreatePool (s : StorageService) (q : CreateQ) (db : DB) (id : String)
    (createdAt updatedAt : Nat) (req : CreatePoolRequest) : DB × Except String StoragePool :=
  let chunkSize := if req.ChunkSize = "" then "100M" else req.ChunkSize
  match q.begin_ with
  | some e => (db, .error e)
  | none =>
    match q.insertPool with
    | some e => (db, .error e)
    | none =>
      match insertPool db (newPoolRow id createdAt updatedAt req) with
      | .error e => (db, .error e)
      | .ok db1 =>
        match insertAccounts s.foreignKeys q.insertAccount id req.AccountIDs 0 db1 with
        | .error e => (db, .error e)
        | .ok db2 =>
          match q.commit with
          | some e => (db, .error e)
          | none =>
            (db2, .ok { ID := id, Name := req.Name, Strategy := req.Strategy,
                        EnableChunker := req.EnableChunker,
                        AllowLargeFiles := req.AllowLargeFiles, ChunkSize := chunkSize,
                        MountPath := "", Status := "stopped", Accounts := [],
                        CreatedAt := createdAt, UpdatedAt := updatedAt })

/-- `MAX(priority)` over the membership rows of a pool: `none` (SQL NULL) when the pool
has no row. -/
def maxPriority (db : DB) (poolID : String) : Option Int :=
  ((db.pool_accounts.filter (fun pa => pa.PoolID = poolID)).map (fun pa => pa.Priority)).foldl
    (fun acc x => match acc with
      | none => some x
      | some m => some (max m x)) none

/-- `StorageService.AddAccountToPool`: one insert with priority
`COALESCE(MAX(priority), 0) + 1`. -/
def AddAccountToPool (s : StorageService) (q : Error) (db : DB) (poolID accountID : String) :
    DB × Error :=
  match q with
  | some e => (db, some e)
  | none =>
    match insertPoolAccount s.foreignKeys db
        ⟨poolID, accountID, (maxPriority db poolID).getD 0 + 1⟩ with
    | .error e => (db, some e)
    | .ok db1 => (db1, none)

/-- `StorageService.RemoveAccountFromPool`. -/
def RemoveAccountFromPool (q : Error) (db : DB) (poolID accountID : String) : DB × Error :=
  match q with
  | some e => (db, some e)
  | none =>
    ({ db with
       pool_accounts := db.pool_accounts.filter
         (fun pa => ¬ (pa.PoolID = poolID ∧ pa.AccountID = accountID)) }, none)

/-! ## services/stats_service.go -/

/-- Go `int64` arithmetic: the value of an integer expression after wrap-around. -/
def wrap64 (x : Int) : Int :=
  (x + 2 ^ 63) % 2 ^ 64 - 2 ^ 63

/-- The per-account view `models.AccountStats`; `UsagePercent` is the exact rational value
of the `float64` expression. -/
structure AccountStats where
  AccountID : String
  Name : String
  Email : String
  Type_ : String
  QuotaTotal : Int
  QuotaUsed : Int
  QuotaFree : Int
  UsagePercent : ℚ
  Status : String
deriving DecidableEq

/-- The per-pool view `models.PoolStats`. -/
structure PoolStats where
  PoolID : String
  Name : String
  TotalCapacity : Int
  TotalUsed : Int
  TotalFree : Int
  UsagePercent : ℚ
  Status : String
  AccountCount : Nat
deriving DecidableEq

/-- The body of the row loop of `GetAccountStats` for one scanned row. -/
def accountStat (a : Account) : AccountStats :=
  { AccountID := a.ID, Name := a.Name, Email := a.Email, Type_ := a.Type_,
    QuotaTotal := a.QuotaTotal, QuotaUsed := a.QuotaUsed,
    QuotaFree := wrap64 (a.QuotaTotal - a.QuotaUsed),
    UsagePercent :=
      if a.QuotaTotal > 0 then (a.QuotaUsed : ℚ) / (a.QuotaTotal : ℚ) * 100 else 0,
    Status := a.Status }

/-- `StatsService.GetAccountStats`: one entry per account row, `ORDER BY name`. -/
def GetAccountStats (db : DB) (q : Error) : Except String (List AccountStats) :=
  match q with
  | some e => .error e
  | none =>
    .ok ((db.accounts.insertionSort (fun a b => ¬ (b.Name < a.Name))).map accountStat)

/-- SQLite `SUM` over integer values: NULL (`none`) over no row, the error
"integer overflow" as soon as a running sum leaves the 64-bit range. -/
def sqlSum : List Int → Option Int → Except String (Option Int)
  | [], acc => .ok acc
  | x :: xs, acc =>
    let t := acc.getD 0 + x
    if - 2 ^ 63 ≤ t ∧ t < 2 ^ 63 then sqlSum xs (some t) else .error "integer overflow"

/-- The per-pool aggregate query of `GetPoolStats` followed by its `Scan`, whose error is
dropped: the two `sql.NullInt64` values, both invalid when the query or the scan fails. -/
def poolAggregate (db : DB) (q : Error) (poolID : String) : Option Int × Option Int :=
  match q with
  | some _ => (none, none)
  | none =>
    let joined := (db.pool_accounts.filter (fun pa => pa.PoolID = poolID)).flatMap
      (fun pa => db.accounts.filter (fun a => a.ID = pa.AccountID))
    match sqlSum (joined.map (fun a => a.QuotaTotal)) none,
          sqlSum (joined.map (fun a => a.QuotaUsed)) none with
    | .ok totalCap, .ok totalUsed => (totalCap, totalUsed)
    | _, _ => (none, none)

/-- The body of the row loop of `GetPoolStats` for one pool row, given its member count
and the two scanned aggregates. -/
def poolStat (row : PoolRow) (accountCount : Nat) (totalCap totalUsed : Option Int) :
    PoolStats :=
  let TotalCapacity := totalCap.getD 0
  let TotalUsed := totalUsed.getD 0
  { PoolID := row.ID, Name := row.Name, TotalCapacity := TotalCapacity,
    TotalUsed := TotalUsed, TotalFree := wrap64 (TotalCapacity - TotalUsed),
    UsagePercent :=
      if TotalCapacity > 0 then (TotalUsed : ℚ) / (TotalCapacity : ℚ) * 100 else 0,
    Status := row.Status, AccountCount := accountCount }

/-- `StatsService.GetPoolStats`: one entry per pool row, `ORDER BY sp.name`; `q` is the
I/O error of the pool listing and `qAgg` that of the aggregate query of each pool id. -/
def GetPoolStats (db : DB) (q : Error) (qAgg : String → Error) :
    Except String (List PoolStats) :=
  match q with
  | some e => .error e
  | none =>
    .ok ((db.storage_pools.insertionSort (fun a b => ¬ (b.Name < a.Name))).map (fun row =>
      poolStat row (db.pool_accounts.filter (fun pa => pa.PoolID = row.ID)).length
        (poolAggregate db (qAgg row.ID) row.ID).1 (poolAggregate db (qAgg row.ID) row.ID).2))

/-- The global view `models.StorageStats`. -/
structure StorageStats where
  TotalCapacity : Int
  TotalUsed : Int
  TotalFree : Int
  AccountStats : List AccountStats
  PoolStats : List PoolStats
deriving DecidableEq

/-- The `for _, as := range accountStats` loop of `GetStorageStats`: the two `int64`
accumulators after the loop. -/
def sumQuotas (accountStats : List AccountStats) : Int × Int :=
  accountStats.foldl
    (fun acc st => (wrap64 (acc.1 + st.QuotaTotal), wrap64 (acc.2 + st.QuotaUsed))) (0, 0)

/-- `StatsService.GetStorageStats` (its error result is always nil); `qAcc`, `qPool` and
`qAgg` are the I/O errors of the queries of `GetAccountStats` and `GetPoolStats`. -/
def GetStorageStats (db : DB) (qAcc qPool : Error) (qAgg : String → Error) : StorageStats :=
  let stats : StorageStats :=
    match GetAccountStats db qAcc with
    | .ok accountStats =>
      { TotalCapacity := (sumQuotas accountStats).1,
        TotalUsed := (sumQuotas accountStats).2,
        TotalFree := wrap64 ((sumQuotas accountStats).1 - (sumQuotas accountStats).2),
        AccountStats := accountStats, PoolStats := [] }
    | .error _ => ⟨0, 0, 0, [], []⟩
  match GetPoolStats db qPool qAgg with
  | .ok poolStats => { stats with PoolStats := poolStats }
  | .error _ => stats

/-- The `StatsService`: its connector manager, and whether its database lets a statement
write while a cursor of another statement of the process is still open (a write-ahead
journal).  The rollback-journal database `InitDB` opens does not: there such a write
fails with "database is locked". -/
structure StatsService where
  rclone : Manager
  writeDuringRead : Bool
deriving DecidableEq, Repr

/-- The environment of the statements of `RefreshAllQuotas`: the I/O error of the listing
query, and of the `UPDATE` of each account id. -/
structure RefreshQ where
  listing : Error
  update : String → Error

/-- `UPDATE accounts SET quota_total = ?, quota_used = ? WHERE id = ?`. -/
def setQuota (db : DB) (id : String) (total used : Int) : DB :=
  { db with accounts := db.accounts.map (fun a =>
      if a.ID = id then { a with QuotaTotal := total, QuotaUsed := used } else a) }

/-- The error of a `db.Exec` issued while the `rows` cursor of a `db.Query` of the same
call is open: the statement runs on a second connection, and commits only on a database
that lets it write during the read; otherwise it fails with "database is locked". -/
def execUnderCursor (writeDuringRead : Bool) (io : Error) : Error :=
  if writeDuringRead then io else some "database is locked"

/-- The row loop of `RefreshAllQuotas` over the listed `(id, type)` pairs, the cursor of
the listing being open throughout: the database after the loop and the commands run.  The
error of the `UPDATE` is dropped. -/
def refreshLoop (m : Manager) (w : World) (unmarshal : String → Except String (Int × Int))
    (writeDuringRead : Bool) (update : String → Error) :
    List (String × String) → DB → DB × List Cmd
  | [], db => (db, [])
  | (id, accountType) :: rest, db =>
    match GetQuota m w unmarshal id accountType with
    | .error _ =>
      let r := refreshLoop m w unmarshal writeDuringRead update rest db
      (r.1, aboutCmd m id accountType :: r.2)
    | .ok (total, used) =>
      let db1 := match execUnderCursor writeDuringRead (update id) with
        | some _ => db
        | none => setQuota db id total used
      let r := refreshLoop m w unmarshal writeDuringRead update rest db1
      (r.1, aboutCmd m id accountType :: r.2)

/-- `StatsService.RefreshAllQuotas`. -/
def RefreshAllQuotas (s : StatsService) (w : World)
    (unmarshal : String → Except String (Int × Int)) (q : RefreshQ) (db : DB) : Result :=
  match q.listing with
  | some e => ⟨db, [], some e⟩
  | none =>
    let r := refreshLoop s.rclone w unmarshal s.writeDuringRead q.update
      ((db.accounts.filter (fun a => a.Status = "active")).map (fun a => (a.ID, a.Type_))) db
    ⟨r.1, r.2, none⟩

/-- The effect of one iteration of the loop of `RefreshAllQuotas`, for the listed pair
`key`, on an account row with that id, given the error of each `UPDATE`. -/
def applyQuota (m : Manager) (w : World) (unmarshal : String → Except String (Int × Int))
    (update : String → Error) (key : String × String) (a : Account) : Account :=
  match GetQuota m w unmarshal key.1 key.2 with
  | .ok (total, used) =>
    match update key.1 with
    | some _ => a
    | none => { a with QuotaTotal := total, QuotaUsed := used }
  | .error _ => a

/-- What the specification says `RefreshAll` does to one account row: an active account
whose query succeeded takes the queried values; every other account keeps its values. -/
def specRefreshed (m : Manager) (w : World) (unmarshal : String → Except String (Int × Int))
    (a : Account) : Account :=
  if a.Status = "active" then
    match GetQuota m w unmarshal a.ID a.Type_ with
    | .ok (total, used) => { a with QuotaTotal := total, QuotaUsed := used }
    | .error _ => a
  else a

/-! ## Sequences of pool operations -/

/-- One call of the pool service together with its environment. -/
inductive Op where
  | createPool (q : CreateQ) (id : String) (createdAt updatedAt : Nat)
      (req : CreatePoolRequest)
  | startPool (w : World) (q : StartQ) (id : String)
  | stopPool (w : World) (q : StopQ) (id : String)
  | deletePool (w : World) (q : DeleteQ) (id : String)
  | addAccountToPool (q : Error) (poolID accountID : String)
  | removeAccountFromPool (q : Error) (poolID accountID : String)

/-- The database after a call. -/
def Op.run (s : StorageService) (db : DB) : Op → DB
  | .createPool q id createdAt updatedAt req => (CreatePool s q db id createdAt updatedAt req).1
  | .startPool w q id => (StartPool s w q db id).db
  | .stopPool w q id => (StopPool s w q db id).db
  | .deletePool w q id => (DeletePool s w q db id).db
  | .addAccountToPool q poolID accountID => (AddAccountToPool s q db poolID accountID).1
  | .removeAccountFromPool q poolID accountID =>
    (RemoveAccountFromPool q db poolID accountID).1

/-- The databases reachable from a store without pools and memberships (the accounts table
is whatever the account service left) by calls of the pool service, each call with any
environment. -/
inductive Reachable (s : StorageService) : DB → Prop
  | init (accounts : List Account) : Reachable s ⟨accounts, [], []⟩
  | step {db : DB} (op : Op) : Reachable s db → Reachable s (op.run s db)

/-- The databases reachable from a store without pools and memberships by calls of
`CreatePool`, `AddAccountToPool` and `RemoveAccountFromPool`, each with any environment;
the id `uuid.New()` hands to `CreatePool` is one that no membership row carries. -/
inductive ReachableMembers (s : StorageService) : DB → Prop
  | init (accounts : List Account) : ReachableMembers s ⟨accounts, [], []⟩
  | create {db : DB} (q : CreateQ) (id : String) (createdAt updatedAt : Nat)
      (req : CreatePoolRequest) :
      ReachableMembers s db → (∀ pa ∈ db.pool_accounts, pa.PoolID ≠ id) →
      ReachableMembers s (CreatePool s q db id createdAt updatedAt req).1
  | add {db : DB} (q : Error) (poolID accountID : String) :
      ReachableMembers s db →
      ReachableMembers s (AddAccountToPool s q db poolID accountID).1
  | remove {db : DB} (q : Error) (poolID accountID : String) :
      ReachableMembers s db →
      ReachableMembers s (RemoveAccountFromPool q db poolID accountID).1

/-- The invariant of a pool row: `mount_path` is non-null exactly when the status is
"running". -/
def PoolRow.consistent (p : PoolRow) : Prop :=
  p.MountPath ≠ none ↔ p.Status = "running"

/-- The invariant of table `storage_pools`: ids are unique (primary key) and every row is
consistent. -/
def DB.poolsOk (db : DB) : Prop :=
  (db.storage_pools.map (fun p => p.ID)).Nodup ∧ ∀ p ∈ db.storage_pools, p.consistent

/-- The pool-row read at the start of `StartPool`, `StopPool` and `DeletePool`, seen from
the table: the status of the first row with the given id. -/
def DB.poolStatus (db : DB) (id : String) : Option String :=
  (db.findPool id).map (fun p => p.Status)

/-- The `mount_path` column of the pool with the given id (`none` also when the pool is
absent, `some none` for SQL NULL). -/
def DB.poolMountPath (db : DB) (id : String) : Option (Option String) :=
  (db.findPool id).map (fun p => p.MountPath)

/-! ## The composition table and upstream naming as the specification words them -/

/-- The specification's strategy table: the (action, create, search) policies of a
strategy string; `union` and every unlisted string take the last line. -/
def specPolicy (strategy : String) : String × String × String :=
  if strategy = "mirror" then ("all", "all", "ff")
  else if strategy = "eplus" then ("epall", "eplus", "ff")
  else if strategy = "epff" then ("epall", "epff", "ff")
  else ("epall", "epmfs", "ff")

/-- The specification's upstream entry of an account: `chunk_<id>:` when chunking is
enabled, `<type>_<id>:` otherwise. -/
def specUpstream (chunking : Bool) (account : Account) : String :=
  if chunking then "chunk_" ++ account.ID ++ ":"
  else account.Type_ ++ "_" ++ account.ID ++ ":"

/-! ## Example environments and stores -/

/-- A world where nothing is mounted yet: `mountpoint -q` fails, every other command and
every `MkdirAll` succeeds. -/
def World.fresh : World :=
  ⟨fun cmd => if cmd.head? = some "mountpoint" then ⟨some "exit status 1", ""⟩ else ⟨none, ""⟩,
    fun _ => none⟩

/-- A world where every command fails. -/
def World.broken : World :=
  ⟨fun _ => ⟨some "exit status 1", ""⟩, fun _ => none⟩

/-- A service with the default mount root on a connection without foreign-key
enforcement. -/
def exService : StorageService := ⟨⟨"/cfg/rclone.conf", "/mnt/pooled-storage"⟩, false⟩

/-- Two accounts. -/
def exAccounts : List Account :=
  [⟨"A", "first", "google", "a@example.org", 100, 40, "active", 0, 0⟩,
   ⟨"B", "second", "microsoft", "b@example.org", 50, 50, "active", 0, 0⟩]

/-- Statement environments in which the database executes everything. -/
def exCreateQ : CreateQ := ⟨none, none, fun _ => none, none⟩

/-- See `exCreateQ`. -/
def exGetQ : GetPoolQ := ⟨none, none⟩

/-- See `exCreateQ`. -/
def exStartQ : StartQ := ⟨exGetQ, ⟨none, 1⟩, ⟨none, 2⟩, ⟨none, 3⟩⟩

/-- See `exCreateQ`. -/
def exStopQ : StopQ := ⟨exGetQ, ⟨none, 4⟩⟩

/-- See `exCreateQ`. -/
def exDeleteQ : DeleteQ := ⟨exGetQ, exStopQ, none⟩

/-- A request for a pool over accounts `A` and `B`. -/
def exRequest : CreatePoolRequest := ⟨"pool", "eplus", false, false, "", ["A", "B"]⟩

/-- A store with the two accounts and the pool `p1` created from `exRequest`. -/
def exCreated : DB :=
  (Op.createPool exCreateQ "p1" 0 0 exRequest).run exService ⟨exAccounts, [], []⟩

/-- The store `exCreated` after a successful `StartPool`. -/
def exStarted : DB :=
  (Op.startPool World.fresh exStartQ "p1").run exService exCreated

/-- A store with one stopped pool `p0` that has no member. -/
def exEmptyPool : DB :=
  ⟨exAccounts, [⟨"p0", "empty", "union", false, false, "100M", none, "stopped", 0, 0⟩], []⟩

/-- The store `exCreated` after account `B` left the pool and joined it again. -/
def exRejoined : DB :=
  (AddAccountToPool exService none
    (RemoveAccountFromPool none exCreated "p1" "B").1 "p1" "B").1

/-- The pool `p1` of `exCreated` as `GetPool` returns it: accounts `A`, `B`, strategy
`eplus`, chunking disabled. -/
def exPool : StoragePool :=
  ⟨"p1", "pool", "eplus", false, false, "100M", "", "stopped", exAccounts, 0, 0⟩

/-- The pool `exPool` with chunking enabled. -/
def exChunkedPool : StoragePool :=
  ⟨"p1", "pool", "mirror", true, false, "100M", "", "stopped", exAccounts, 0, 0⟩

/-- A world where nothing is mounted and the union-creation command fails. -/
def World.noUnion : World :=
  ⟨fun cmd =>
      if cmd.head? = some "mountpoint" ∨ "union" ∈ cmd then ⟨some "exit status 1", "boom"⟩
      else ⟨none, ""⟩,
    fun _ => none⟩

/-- A world where the mount point is already mounted: every command succeeds, the
`mountpoint -q` probe included. -/
def World.mounted : World := World.allOk

/-- Three accounts: `C` active, `B` inactive, `A` active. -/
def exThreeAccounts : List Account :=
  [⟨"C", "third", "google", "c@example.org", 5, 5, "active", 0, 0⟩,
   ⟨"B", "second", "microsoft", "b@example.org", 50, 50, "inactive", 0, 0⟩,
   ⟨"A", "first", "google", "a@example.org", 100, 40, "active", 0, 0⟩]

/-- A world where the quota query of `google_C:` fails and every other command succeeds,
the quota queries printing `ok`. -/
def World.quotaOfCFails : World :=
  ⟨fun cmd => if "google_C:" ∈ cmd then ⟨some "exit status 1", ""⟩ else ⟨none, "ok"⟩,
    fun _ => none⟩

/-- The stats service on the database `InitDB` opens: no write during an open read. -/
def exStatsService : StatsService := ⟨exService.rclone, false⟩

/-- The stats service on a database with a write-ahead journal. -/
def exWalStatsService : StatsService := ⟨exService.rclone, true⟩

/-- A decoder that reads `ok` as total 200, used 10. -/
def exUnmarshal (out : String) : Except String (Int × Int) :=
  if out = "ok" then .ok (200, 10) else .error "unexpected end of JSON input"

/-- A request that lists account `A` twice. -/
def exDupRequest : CreatePoolRequest := ⟨"pool", "no-such-strategy", false, false, "", ["A", "A"]⟩

/-- A service whose manager was built with `MOUNT_PATH=/data/mounts`. -/
def exCustomService : StorageService :=
  ⟨NewManager "/cfg/rclone.conf" "/root" "/data/mounts", false⟩

/-! ## Theorems -/

/-! ### Auxiliary facts about the store -/

theorem find_unique {pools : List PoolRow} (hn : (pools.map (fun p => p.ID)).Nodup)
    {id : String} {row : PoolRow}
    (hf : pools.find? (fun p => decide (p.ID = id)) = some row) :
    ∀ p ∈ pools, p.ID = id → p = row := by
  intro p hp hid
  have hmem : row ∈ pools := List.mem_of_find?_eq_some hf
  have hrow : row.ID = id := by simpa using List.find?_some hf
  exact List.inj_on_of_nodup_map hn hp hmem (by rw [hid, hrow])

theorem GetPool_ok {db : DB} {q : GetPoolQ} {id : String} {pool : StoragePool}
    (h : GetPool db q id = .ok pool) :
    ∃ row, db.findPool id = some row ∧
      pool.ID = row.ID ∧ pool.Status = row.Status ∧ row.ID = id := by
  unfold GetPool at h
  split at h
  · cases h
  · split at h
    · cases h
    · rename_i row hrow
      refine ⟨row, hrow, ?_, ?_, ?_⟩
      · cases h; rfl
      · cases h; rfl
      · simpa using List.find?_some (show db.storage_pools.find? _ = some row from hrow)

theorem poolsOk_map {db : DB} (f : PoolRow → PoolRow) (hid : ∀ p, (f p).ID = p.ID)
    (hf : ∀ p ∈ db.storage_pools, p.consistent → (f p).consistent) (h : db.poolsOk) :
    DB.poolsOk { db with storage_pools := db.storage_pools.map f } := by
  refine ⟨?_, ?_⟩
  · have : (fun p => p.ID) ∘ f = fun p : PoolRow => p.ID := funext hid
    simpa [List.map_map, this] using h.1
  · intro p hp
    obtain ⟨p0, hp0, rfl⟩ := List.mem_map.1 hp
    exact hf p0 hp0 (h.2 p0 hp0)

theorem updatePoolStatus_poolsOk {db : DB} (q : Exec) {id status : String}
    (hs : status ≠ "running") (h : db.poolsOk)
    (hnr : ∀ p ∈ db.storage_pools, p.ID = id → p.Status ≠ "running") :
    (updatePoolStatus db q id status).poolsOk ∧
      ∀ p ∈ (updatePoolStatus db q id status).storage_pools,
        p.ID = id → p.Status ≠ "running" := by
  unfold updatePoolStatus
  split
  · exact ⟨h, hnr⟩
  · refine ⟨poolsOk_map _ ?_ ?_ h, ?_⟩
    · intro p
      by_cases hp : p.ID = id <;> simp [hp]
    · intro p hp hc
      by_cases hpid : p.ID = id
      · have hnot := hnr p hp hpid
        have hm : p.MountPath = none := by
          by_contra hne
          exact hnot (hc.1 hne)
        simp [hpid, PoolRow.consistent, hm, hs]
      · simpa [hpid] using hc
    · intro p hp hpid
      obtain ⟨p0, hp0, rfl⟩ := List.mem_map.1 hp
      by_cases h0 : p0.ID = id
      · simpa [h0] using hs
      · simp [h0] at hpid

theorem setRunning_poolsOk {db : DB} (id mountPath : String) (now : Nat) (h : db.poolsOk) :
    (setRunning db id mountPath now).poolsOk := by
  unfold setRunning
  refine poolsOk_map _ ?_ ?_ h
  · intro p
    by_cases hp : p.ID = id <;> simp [hp]
  · intro p _ hc
    by_cases hpid : p.ID = id
    · simp [hpid, PoolRow.consistent]
    · simpa [hpid] using hc

theorem setStopped_poolsOk {db : DB} (id : String) (now : Nat) (h : db.poolsOk) :
    (setStopped db id now).poolsOk := by
  unfold setStopped
  refine poolsOk_map _ ?_ ?_ h
  · intro p
    by_cases hp : p.ID = id <;> simp [hp]
  · intro p _ hc
    by_cases hpid : p.ID = id
    · simp [hpid, PoolRow.consistent]
    · simpa [hpid] using hc

theorem StartPool_poolsOk (s : StorageService) (w : World) (q : StartQ) {db : DB}
    (id : String) (h : db.poolsOk) : (StartPool s w q db id).db.poolsOk := by
  unfold StartPool
  split
  · exact h
  · rename_i pool hget
    obtain ⟨row, hfind, -, hstatus, -⟩ := GetPool_ok hget
    split
    · exact h
    · rename_i hnr
      have hrows : ∀ p ∈ db.storage_pools, p.ID = id → p.Status ≠ "running" := by
        intro p hp hpid
        rw [find_unique h.1 hfind p hp hpid, ← hstatus]
        exact hnr
      have h1 := updatePoolStatus_poolsOk q.starting (by decide : "starting" ≠ "running")
        h hrows
      have h2 := updatePoolStatus_poolsOk q.error (by decide : "error" ≠ "running")
        h1.1 h1.2
      dsimp only
      split
      · exact h2.1
      · split
        · exact h2.1
        · split
          · exact h1.1
          · exact setRunning_poolsOk _ _ _ h1.1

theorem StopPool_poolsOk (s : StorageService) (w : World) (q : StopQ) {db : DB}
    (id : String) (h : db.poolsOk) : (StopPool s w q db id).db.poolsOk := by
  unfold StopPool
  split
  · exact h
  · split
    · exact h
    · split
      · exact h
      · dsimp only
        split
        · exact h
        · exact setStopped_poolsOk _ _ h

theorem deletePoolRow_poolsOk (fk : Bool) {db : DB} (id : String) (h : db.poolsOk) :
    (deletePoolRow fk db id).poolsOk := by
  unfold deletePoolRow
  refine ⟨?_, ?_⟩
  · exact (List.filter_sublist _).map _ |>.nodup h.1
  · intro p hp
    exact h.2 p (List.mem_of_mem_filter hp)

theorem DeletePool_poolsOk (s : StorageService) (w : World) (q : DeleteQ) {db : DB}
    (id : String) (h : db.poolsOk) : (DeletePool s w q db id).db.poolsOk := by
  have hstop := StopPool_poolsOk s w q.stop id h
  unfold DeletePool
  split
  · exact h
  · split
    · split
      · rename_i db1 c1 e heq
        rw [heq] at hstop
        exact hstop
      · rename_i db1 c1 heq
        rw [heq] at hstop
        split
        · exact hstop
        · exact deletePoolRow_poolsOk _ _ hstop
    · split
      · exact h
      · exact deletePoolRow_poolsOk _ _ h

theorem insertPoolAccount_ok {fk : Bool} {db db1 : DB} {row : PoolAccount}
    (h : insertPoolAccount fk db row = .ok db1) :
    db1 = { db with pool_accounts := db.pool_accounts ++ [row] } ∧
      (∀ pa ∈ db.pool_accounts, ¬ (pa.PoolID = row.PoolID ∧ pa.AccountID = row.AccountID)) := by
  unfold insertPoolAccount at h
  split at h
  · cases h
  · rename_i hdup
    split at h
    · cases h
    · refine ⟨by cases h; rfl, ?_⟩
      intro pa hpa hc
      apply hdup
      simp only [List.any_eq_true, decide_eq_true_eq]
      exact ⟨pa, hpa, hc⟩

theorem insertAccounts_ok {fk : Bool} {q : Nat → Error} {poolID : String} :
    ∀ (ids : List String) (i : Nat) (db db2 : DB),
      insertAccounts fk q poolID ids i db = .ok db2 →
      db2.accounts = db.accounts ∧ db2.storage_pools = db.storage_pools ∧
      db2.pool_accounts = db.pool_accounts ++
        (ids.enumFrom i).map (fun ka => (⟨poolID, ka.2, (ka.1 : Int)⟩ : PoolAccount)) := by
  intro ids
  induction ids with
  | nil =>
    intro i db db2 h
    simp only [insertAccounts] at h
    cases h
    simp
  | cons a rest ih =>
    intro i db db2 h
    simp only [insertAccounts] at h
    split at h
    · cases h
    · split at h
      · cases h
      · rename_i db1 hins
        obtain ⟨hdb1, -⟩ := insertPoolAccount_ok hins
        obtain ⟨ha, hp, hpa⟩ := ih (i + 1) db1 db2 h
        subst hdb1
        refine ⟨ha, hp, ?_⟩
        rw [hpa]
        simp [List.enumFrom]

theorem insertPool_ok {db db1 : DB} {row : PoolRow} (h : insertPool db row = .ok db1) :
    db1 = { db with storage_pools := db.storage_pools ++ [row] } ∧
      ∀ p ∈ db.storage_pools, p.ID ≠ row.ID := by
  unfold insertPool at h
  split at h
  · cases h
  · rename_i hdup
    refine ⟨by cases h; rfl, ?_⟩
    intro p hp hc
    apply hdup
    simp only [List.any_eq_true, decide_eq_true_eq]
    exact ⟨p, hp, hc⟩

theorem CreatePool_cases (s : StorageService) (q : CreateQ) (db : DB) (id : String)
    (createdAt updatedAt : Nat) (req : CreatePoolRequest) :
    ((CreatePool s q db id createdAt updatedAt req).1 = db ∧
      ∃ e, (CreatePool s q db id createdAt updatedAt req).2 = .error e) ∨
    ((∃ pool, (CreatePool s q db id createdAt updatedAt req).2 = .ok pool) ∧
      (CreatePool s q db id createdAt updatedAt req).1.accounts = db.accounts ∧
      (CreatePool s q db id createdAt updatedAt req).1.storage_pools =
        db.storage_pools ++ [newPoolRow id createdAt updatedAt req] ∧
      (CreatePool s q db id createdAt updatedAt req).1.pool_accounts =
        db.pool_accounts ++ (req.AccountIDs.enumFrom 0).map
          (fun ka => (⟨id, ka.2, (ka.1 : Int)⟩ : PoolAccount)) ∧
      (∀ p ∈ db.storage_pools, p.ID ≠ id)) := by
  unfold CreatePool
  dsimp only
  split
  · exact Or.inl ⟨rfl, _, rfl⟩
  · split
    · exact Or.inl ⟨rfl, _, rfl⟩
    · split
      · exact Or.inl ⟨rfl, _, rfl⟩
      · rename_i db1 hpool
        obtain ⟨hdb1, hfresh⟩ := insertPool_ok hpool
        split
        · exact Or.inl ⟨rfl, _, rfl⟩
        · rename_i db2 hacc
          obtain ⟨ha, hp, hpa⟩ := insertAccounts_ok _ _ _ _ hacc
          split
          · exact Or.inl ⟨rfl, _, rfl⟩
          · right
            subst hdb1
            exact ⟨⟨_, rfl⟩, ha, hp, hpa, hfresh⟩

theorem CreatePool_poolsOk (s : StorageService) (q : CreateQ) {db : DB} (id : String)
    (createdAt updatedAt : Nat) (req : CreatePoolRequest) (h : db.poolsOk) :
    (CreatePool s q db id createdAt updatedAt req).1.poolsOk := by
  rcases CreatePool_cases s q db id createdAt updatedAt req with ⟨hdb, -⟩ | ⟨-, -, hp, -, hfresh⟩
  · rw [hdb]
    exact h
  · refine ⟨?_, ?_⟩
    · rw [hp, List.map_append, List.nodup_append]
      refine ⟨h.1, by simp, ?_⟩
      intro x hx hx2
      obtain ⟨p0, hp0, rfl⟩ := List.mem_map.1 hx
      simp only [List.map_cons, List.map_nil, List.mem_singleton] at hx2
      exact hfresh p0 hp0 hx2
    · intro p hp2
      rw [hp, List.mem_append, List.mem_singleton] at hp2
      rcases hp2 with hp2 | rfl
      · exact h.2 p hp2
      · simp [PoolRow.consistent, newPoolRow]

theorem AddAccountToPool_pools (s : StorageService) (q : Error) (db : DB)
    (poolID accountID : String) :
    (AddAccountToPool s q db poolID accountID).1.storage_pools = db.storage_pools := by
  unfold AddAccountToPool
  split
  · rfl
  · split
    · rfl
    · rename_i db1 hins
      rw [(insertPoolAccount_ok hins).1]

theorem Op.run_poolsOk (s : StorageService) {db : DB} (op : Op) (h : db.poolsOk) :
    (op.run s db).poolsOk := by
  cases op with
  | createPool q id createdAt updatedAt req => exact CreatePool_poolsOk s q id _ _ req h
  | startPool w q id => exact StartPool_poolsOk s w q id h
  | stopPool w q id => exact StopPool_poolsOk s w q id h
  | deletePool w q id => exact DeletePool_poolsOk s w q id h
  | addAccountToPool q poolID accountID =>
    simp only [Op.run, DB.poolsOk]
    rw [AddAccountToPool_pools]
    exact h
  | removeAccountFromPool q poolID accountID =>
    simp only [Op.run, RemoveAccountFromPool]
    split
    · exact h
    · exact h

theorem Reachable.poolsOk {s : StorageService} {db : DB} (h : Reachable s db) :
    db.poolsOk := by
  induction h with
  | init accounts => exact ⟨by simp, by simp⟩
  | step op _ ih => exact Op.run_poolsOk s op ih

theorem find_map_of_id (f : PoolRow → PoolRow) (hid : ∀ p, (f p).ID = p.ID)
    (pools : List PoolRow) (id : String) :
    (pools.map f).find? (fun p => decide (p.ID = id)) =
      (pools.find? (fun p => decide (p.ID = id))).map f := by
  induction pools with
  | nil => rfl
  | cons p rest ih =>
    by_cases hp : p.ID = id
    · simp [List.find?, hid, hp]
    · simp [List.find?, hid, hp, ih]

theorem findPool_updatePoolStatus (db : DB) (q : Exec) (id status : String) :
    (updatePoolStatus db q id status).findPool id =
      match q.err with
      | some _ => db.findPool id
      | none => (db.findPool id).map
          (fun p => { p with Status := status, UpdatedAt := q.now }) := by
  unfold updatePoolStatus DB.findPool
  split
  · rfl
  · dsimp only
    rw [find_map_of_id _ (by intro p; by_cases hp : p.ID = id <;> simp [hp])]
    cases hfind : db.storage_pools.find? (fun p => decide (p.ID = id)) with
    | none => rfl
    | some row =>
      have hrow : row.ID = id := by simpa using List.find?_some hfind
      simp [hrow]

theorem updatePoolStatus_other (db : DB) (q : Exec) (id status : String) :
    (updatePoolStatus db q id status).accounts = db.accounts ∧
      (updatePoolStatus db q id status).pool_accounts = db.pool_accounts := by
  unfold updatePoolStatus
  split <;> exact ⟨rfl, rfl⟩

theorem GetPool_of_find {db : DB} {q : GetPoolQ} {id : String} {row : PoolRow}
    (hfind : db.findPool id = some row) (hread : q.pool = none) :
    ∃ pool, GetPool db q id = .ok pool ∧ pool.Status = row.Status ∧ pool.ID = id := by
  have hrow : row.ID = id := by
    simpa using List.find?_some (show db.storage_pools.find? _ = some row from hfind)
  unfold GetPool
  rw [hread, hfind]
  exact ⟨_, rfl, rfl, hrow⟩

theorem GetPool_of_status {db : DB} {q : GetPoolQ} {id st : String}
    (hst : db.poolStatus id = some st) (hread : q.pool = none) :
    ∃ pool, GetPool db q id = .ok pool ∧ pool.Status = st ∧ pool.ID = id := by
  unfold DB.poolStatus at hst
  cases hfind : db.findPool id with
  | none => simp [hfind] at hst
  | some row =>
    simp only [hfind, Option.map_some', Option.some.injEq] at hst
    obtain ⟨pool, hget, hs, hid⟩ := GetPool_of_find hfind hread
    exact ⟨pool, hget, hs.trans hst, hid⟩

theorem insertAccounts_fresh {fk : Bool} {q : Nat → Error} {poolID : String} :
    ∀ (ids : List String) (i : Nat) (db db2 : DB),
      insertAccounts fk q poolID ids i db = .ok db2 →
      ids.Nodup ∧
        ∀ a ∈ ids, ∀ pa ∈ db.pool_accounts, ¬ (pa.PoolID = poolID ∧ pa.AccountID = a) := by
  intro ids
  induction ids with
  | nil =>
    intro i db db2 _
    simp
  | cons a rest ih =>
    intro i db db2 h
    simp only [insertAccounts] at h
    split at h
    · cases h
    · split at h
      · cases h
      · rename_i db1 hins
        obtain ⟨hdb1, hnew⟩ := insertPoolAccount_ok hins
        obtain ⟨hnd, hrest⟩ := ih (i + 1) db1 db2 h
        subst hdb1
        refine ⟨List.nodup_cons.2 ⟨?_, hnd⟩, ?_⟩
        · intro hmem
          exact hrest a hmem ⟨poolID, a, (i : Int)⟩ (by simp) ⟨rfl, rfl⟩
        · intro b hb pa hpa
          rcases List.mem_cons.1 hb with rfl | hb
          · exact hnew pa hpa
          · exact hrest b hb pa (by simp [hpa])

theorem enumRows_lt (poolID : String) :
    ∀ (ids : List String) (i : Nat),
      ((ids.enumFrom i).map
        (fun ka => (⟨poolID, ka.2, (ka.1 : Int)⟩ : PoolAccount))).Pairwise
        (fun a b => a.Priority < b.Priority) := by
  intro ids
  induction ids with
  | nil => intro i; simp
  | cons a rest ih =>
    intro i
    simp only [List.enumFrom, List.map_cons, List.pairwise_cons]
    refine ⟨?_, ih (i + 1)⟩
    intro b hb
    obtain ⟨ka, hka, rfl⟩ := List.mem_map.1 hb
    have := List.le_fst_of_mem_enumFrom hka
    simp only [Nat.cast_lt]
    omega

theorem enumRows_sorted (poolID : String) (ids : List String) (i : Nat) :
    ((ids.enumFrom i).map
      (fun ka => (⟨poolID, ka.2, (ka.1 : Int)⟩ : PoolAccount))).Sorted
      (fun a b => a.Priority ≤ b.Priority) :=
  (enumRows_lt poolID ids i).imp (fun h => le_of_lt h)

theorem enumRows_accountIDs (poolID : String) :
    ∀ (ids : List String) (i : Nat),
      ((ids.enumFrom i).map
        (fun ka => (⟨poolID, ka.2, (ka.1 : Int)⟩ : PoolAccount))).map
        (fun pa => pa.AccountID) = ids := by
  intro ids
  induction ids with
  | nil => intro i; rfl
  | cons a rest ih =>
    intro i
    simp only [List.enumFrom, List.map_cons, List.cons.injEq, true_and]
    exact ih (i + 1)

theorem filter_id_of_nodup (accounts : List Account)
    (hpk : (accounts.map (fun a => a.ID)).Nodup) (id : String)
    (hex : ∃ acc ∈ accounts, acc.ID = id) :
    (accounts.filter (fun a => decide (a.ID = id))).map (fun a => a.ID) = [id] := by
  induction accounts with
  | nil => obtain ⟨acc, hacc, -⟩ := hex; cases hacc
  | cons a rest ih =>
    simp only [List.map_cons, List.nodup_cons] at hpk
    by_cases ha : a.ID = id
    · have hnone : rest.filter (fun a => decide (a.ID = id)) = [] := by
        rw [List.filter_eq_nil_iff]
        intro b hb hbid
        apply hpk.1
        rw [ha]
        exact List.mem_map.2 ⟨b, hb, by simpa using hbid⟩
      simp [List.filter, ha, hnone]
    · obtain ⟨acc, hacc, hid⟩ := hex
      rcases List.mem_cons.1 hacc with rfl | hacc
      · exact absurd hid ha
      · simp only [List.filter, ha, decide_False]
        exact ih hpk.2 ⟨acc, hacc, hid⟩

theorem foldl_max_spec :
    ∀ (xs : List Int) (acc : Option Int),
      (xs.foldl (fun acc x => match acc with
          | none => some x
          | some m => some (max m x)) acc = none ↔ acc = none ∧ xs = []) ∧
      ∀ m, xs.foldl (fun acc x => match acc with
          | none => some x
          | some m => some (max m x)) acc = some m →
        (m ∈ xs ∨ acc = some m) ∧ (∀ x ∈ xs, x ≤ m) ∧ (∀ a, acc = some a → a ≤ m) := by
  intro xs
  induction xs with
  | nil =>
    intro acc
    refine ⟨by simp, ?_⟩
    intro m hm
    simp only [List.foldl_nil] at hm
    refine ⟨Or.inr hm, by simp, ?_⟩
    intro a ha
    rw [hm] at ha
    cases ha
    exact le_refl _
  | cons x rest ih =>
    intro acc
    simp only [List.foldl_cons]
    cases acc with
    | none =>
      obtain ⟨h1, h2⟩ := ih (some x)
      refine ⟨by simp [h1], ?_⟩
      intro m hm
      obtain ⟨hmem, hle, hacc⟩ := h2 m hm
      refine ⟨Or.inl ?_, ?_, by simp⟩
      · rcases hmem with hmem | hmem
        · exact List.mem_cons_of_mem _ hmem
        · cases hmem
          exact List.mem_cons_self _ _
      · intro y hy
        rcases List.mem_cons.1 hy with rfl | hy
        · exact hacc _ rfl
        · exact hle y hy
    | some a =>
      obtain ⟨h1, h2⟩ := ih (some (max a x))
      refine ⟨by simp [h1], ?_⟩
      intro m hm
      obtain ⟨hmem, hle, hacc⟩ := h2 m hm
      have hmax := hacc _ rfl
      refine ⟨?_, ?_, ?_⟩
      · rcases hmem with hmem | hmem
        · exact Or.inl (List.mem_cons_of_mem _ hmem)
        · cases hmem
          rcases max_choice a x with hc | hc
          · exact Or.inr (by rw [hc])
          · exact Or.inl (by rw [hc]; exact List.mem_cons_self _ _)
      · intro y hy
        rcases List.mem_cons.1 hy with rfl | hy
        · exact le_trans (le_max_right _ _) hmax
        · exact hle y hy
      · intro b hb
        cases hb
        exact le_trans (le_max_left _ _) hmax

theorem maxPriority_none {db : DB} {poolID : String} (h : maxPriority db poolID = none) :
    ∀ pa ∈ db.pool_accounts, pa.PoolID ≠ poolID := by
  unfold maxPriority at h
  have := ((foldl_max_spec _ none).1.1 h).2
  intro pa hpa hid
  have hmem : pa.Priority ∈ (db.pool_accounts.filter
      (fun pa => decide (pa.PoolID = poolID))).map (fun pa => pa.Priority) :=
    List.mem_map.2 ⟨pa, List.mem_filter.2 ⟨hpa, by simpa using hid⟩, rfl⟩
  rw [this] at hmem
  cases hmem

theorem maxPriority_some {db : DB} {poolID : String} {m : Int}
    (h : maxPriority db poolID = some m) :
    (∃ pa ∈ db.pool_accounts, pa.PoolID = poolID ∧ pa.Priority = m) ∧
      ∀ pa ∈ db.pool_accounts, pa.PoolID = poolID → pa.Priority ≤ m := by
  unfold maxPriority at h
  obtain ⟨hmem, hle, -⟩ := (foldl_max_spec _ none).2 m h
  refine ⟨?_, ?_⟩
  · rcases hmem with hmem | hmem
    · obtain ⟨pa, hpa, hp⟩ := List.mem_map.1 hmem
      obtain ⟨hpa1, hpa2⟩ := List.mem_filter.1 hpa
      exact ⟨pa, hpa1, by simpa using hpa2, hp⟩
    · cases hmem
  · intro pa hpa hid
    exact hle _ (List.mem_map.2 ⟨pa, List.mem_filter.2 ⟨hpa, by simpa using hid⟩, rfl⟩)

theorem AddAccountToPool_ok {s : StorageService} {q : Error} {db db2 : DB}
    {poolID accountID : String}
    (h : AddAccountToPool s q db poolID accountID = (db2, none)) :
    db2 = { db with pool_accounts := db.pool_accounts ++
        [⟨poolID, accountID, (maxPriority db poolID).getD 0 + 1⟩] } ∧
      ∀ pa ∈ db.pool_accounts, ¬ (pa.PoolID = poolID ∧ pa.AccountID = accountID) := by
  unfold AddAccountToPool at h
  split at h
  · cases h
  · split at h
    · cases h
    · rename_i db1 hins
      obtain ⟨hdb1, hnew⟩ := insertPoolAccount_ok hins
      cases h
      exact ⟨hdb1, hnew⟩

theorem maxPriority_succ_gt (db : DB) (poolID : String) :
    ∀ pa ∈ db.pool_accounts, pa.PoolID = poolID →
      pa.Priority < (maxPriority db poolID).getD 0 + 1 := by
  intro pa hpa hid
  cases hm : maxPriority db poolID with
  | none => exact absurd hid (maxPriority_none hm pa hpa)
  | some m =>
    have := (maxPriority_some hm).2 pa hpa hid
    simp only [Option.getD_some]
    omega

theorem collectUpstreams_ok (m : Manager) (w : World) (pool : StoragePool) :
    ∀ (accounts : List Account) (upstreams : List String),
      (∀ a ∈ accounts, pool.EnableChunker = true → (w.run (chunkerCmd m pool a)).err = none) →
      collectUpstreams m w pool accounts upstreams =
        (if pool.EnableChunker then accounts.map (chunkerCmd m pool) else [],
          .ok (upstreams ++ accounts.map (specUpstream pool.EnableChunker))) := by
  intro accounts
  induction accounts with
  | nil =>
    intro upstreams _
    simp [collectUpstreams]
  | cons a rest ih =>
    intro upstreams hall
    have hrest := ih (upstreams ++ [specUpstream pool.EnableChunker a])
      (fun b hb => hall b (List.mem_cons_of_mem _ hb))
    cases hc : pool.EnableChunker with
    | true =>
      have ha := hall a (List.mem_cons_self _ _) hc
      simp only [hc, specUpstream, if_true] at hrest
      simp [collectUpstreams, hc, ha, hrest, specUpstream, chunkRemote]
    | false =>
      simp only [hc, specUpstream, Bool.false_eq_true, if_false] at hrest
      simp [collectUpstreams, hc, hrest, specUpstream, remoteName]

theorem CreateUnion_ok (m : Manager) (w : World) (pool : StoragePool)
    (hne : pool.Accounts ≠ [])
    (hch : ∀ a ∈ pool.Accounts, pool.EnableChunker = true →
      (w.run (chunkerCmd m pool a)).err = none) :
    CreateUnion m w pool =
      ((if pool.EnableChunker then pool.Accounts.map (chunkerCmd m pool) else []) ++
          [unionCmd m pool (pool.Accounts.map (specUpstream pool.EnableChunker))],
        (w.run (unionCmd m pool (pool.Accounts.map (specUpstream pool.EnableChunker)))).err.map
          (fun e => "failed to create union: " ++ e ++ " - " ++
            (w.run (unionCmd m pool
              (pool.Accounts.map (specUpstream pool.EnableChunker)))).output)) := by
  have hlen : pool.Accounts.length ≠ 0 := by
    simpa [List.length_eq_zero] using hne
  unfold CreateUnion
  rw [if_neg hlen, collectUpstreams_ok m w pool pool.Accounts [] hch]
  simp only [List.nil_append]
  cases (w.run (unionCmd m pool (pool.Accounts.map (specUpstream pool.EnableChunker)))).err
    <;> rfl

theorem status_after_error_writes {db : DB} {id : String} {row : PoolRow}
    (hfind : db.findPool id = some row) (hrow : row.Status ≠ "running") (q1 q2 : Exec) :
    (updatePoolStatus (updatePoolStatus db q1 id "starting") q2 id "error").poolStatus id
        ≠ some "running" ∧
      (q2.err = none →
        (updatePoolStatus (updatePoolStatus db q1 id "starting") q2 id "error").poolStatus id
          = some "error") ∧
      (updatePoolStatus (updatePoolStatus db q1 id "starting") q2 id "error").poolMountPath id
        = db.poolMountPath id := by
  refine ⟨?_, ?_, ?_⟩
  · simp only [DB.poolStatus, findPool_updatePoolStatus, hfind]
    cases q2.err <;> cases q1.err <;> simp [hrow]
  · intro hw
    simp only [DB.poolStatus, findPool_updatePoolStatus, hfind, hw]
    cases q1.err <;> simp
  · simp only [DB.poolMountPath, findPool_updatePoolStatus, hfind]
    cases q2.err <;> cases q1.err <;> simp

theorem collectUpstreams_cmds (m : Manager) (w : World) (pool : StoragePool) :
    ∀ (accounts : List Account) (upstreams : List String),
      ∀ c ∈ (collectUpstreams m w pool accounts upstreams).1,
        ∃ rest, c = "rclone" :: "config" :: rest := by
  intro accounts
  induction accounts with
  | nil =>
    intro upstreams c hc
    simp [collectUpstreams] at hc
  | cons a rest ih =>
    intro upstreams c hc
    unfold collectUpstreams at hc
    split at hc
    · split at hc
      · simp only [List.mem_singleton] at hc
        exact ⟨_, hc⟩
      · simp only [List.mem_cons] at hc
        rcases hc with hc | hc
        · exact ⟨_, hc⟩
        · exact ih _ c hc
    · exact ih _ c hc

theorem CreateUnion_cmds (m : Manager) (w : World) (pool : StoragePool) :
    ∀ c ∈ (CreateUnion m w pool).1, ∃ rest, c = "rclone" :: "config" :: rest := by
  intro c hc
  unfold CreateUnion at hc
  split at hc
  · simp at hc
  · have hcol := collectUpstreams_cmds m w pool pool.Accounts []
    split at hc
    · rename_i cmds e heq
      rw [heq] at hcol
      exact hcol c hc
    · rename_i cmds ups heq
      rw [heq] at hcol
      dsimp only at hc
      split at hc
      · rcases List.mem_append.1 hc with hc | hc
        · exact hcol c hc
        · simp only [List.mem_singleton] at hc
          exact ⟨_, hc⟩
      · rcases List.mem_append.1 hc with hc | hc
        · exact hcol c hc
        · simp only [List.mem_singleton] at hc
          exact ⟨_, hc⟩

theorem collectUpstreams_run (m : Manager) (run : Cmd → CmdResult)
    (mk1 mk2 : String → Error) (pool : StoragePool) :
    ∀ (accounts : List Account) (upstreams : List String),
      collectUpstreams m ⟨run, mk1⟩ pool accounts upstreams =
        collectUpstreams m ⟨run, mk2⟩ pool accounts upstreams := by
  intro accounts
  induction accounts with
  | nil => intro upstreams; rfl
  | cons a rest ih =>
    intro upstreams
    simp only [collectUpstreams, ih]

theorem CreateUnion_run (m : Manager) (run : Cmd → CmdResult)
    (mk1 mk2 : String → Error) (pool : StoragePool) :
    CreateUnion m ⟨run, mk1⟩ pool = CreateUnion m ⟨run, mk2⟩ pool := by
  simp only [CreateUnion, collectUpstreams_run m run mk1 mk2 pool]

theorem UnmountPool_eq (m : Manager) (w : World) (pool : StoragePool) :
    UnmountPool m w pool =
      if (w.run ["fusermount", "-u", filepathJoin m.mountPath pool.ID]).err = none then
        ([["fusermount", "-u", filepathJoin m.mountPath pool.ID]], none)
      else
        ([["fusermount", "-u", filepathJoin m.mountPath pool.ID],
          ["umount", filepathJoin m.mountPath pool.ID]],
          (w.run ["umount", filepathJoin m.mountPath pool.ID]).err) := by
  unfold UnmountPool
  dsimp only
  cases h : (w.run ["fusermount", "-u", filepathJoin m.mountPath pool.ID]).err <;> simp

theorem findPool_setStopped (db : DB) (id : String) (now : Nat) :
    (setStopped db id now).findPool id =
      (db.findPool id).map
        (fun p => { p with Status := "stopped", MountPath := none, UpdatedAt := now }) := by
  unfold setStopped DB.findPool
  dsimp only
  rw [find_map_of_id _ (by intro p; by_cases hp : p.ID = id <;> simp [hp])]
  cases hfind : db.storage_pools.find? (fun p => decide (p.ID = id)) with
  | none => rfl
  | some row =>
    have hrow : row.ID = id := by simpa using List.find?_some hfind
    simp [hrow]

theorem StopPool_running {s : StorageService} {w : World} {q : StopQ} {db : DB}
    {id : String} (hst : db.poolStatus id = some "running") (hread : q.get.pool = none) :
    StopPool s w q db id =
      if (w.run ["fusermount", "-u", filepathJoin s.rclone.mountPath id]).err = none ∨
          (w.run ["umount", filepathJoin s.rclone.mountPath id]).err = none then
        ⟨match q.stopped.err with
          | some _ => db
          | none => setStopped db id q.stopped.now,
          (if (w.run ["fusermount", "-u", filepathJoin s.rclone.mountPath id]).err = none
            then [["fusermount", "-u", filepathJoin s.rclone.mountPath id]]
            else [["fusermount", "-u", filepathJoin s.rclone.mountPath id],
              ["umount", filepathJoin s.rclone.mountPath id]]) ++
            [["rclone", "config", "delete", "union_" ++ id, "--config",
              s.rclone.configPath]],
          q.stopped.err⟩
      else
        ⟨db, [["fusermount", "-u", filepathJoin s.rclone.mountPath id],
            ["umount", filepathJoin s.rclone.mountPath id]],
          (w.run ["umount", filepathJoin s.rclone.mountPath id]).err.map
            (fun e => "failed to unmount pool: " ++ e)⟩ := by
  obtain ⟨pool, hget, hs, hid⟩ := GetPool_of_status hst hread
  unfold StopPool
  rw [hget]
  simp only [hs, ne_eq, not_true_eq_false, if_false, UnmountPool_eq, hid, DeleteUnion]
  cases h1 : (w.run ["fusermount", "-u", filepathJoin s.rclone.mountPath id]).err with
  | none =>
    simp only [true_or, if_true]
    cases q.stopped.err <;> rfl
  | some e1 =>
    cases h2 : (w.run ["umount", filepathJoin s.rclone.mountPath id]).err with
    | none =>
      simp only [or_true, if_true]
      simp only [reduceCtorEq, if_false]
      cases q.stopped.err <;> rfl
    | some e2 =>
      simp only [reduceCtorEq, or_self, if_false, h2]
      rfl

theorem applyQuota_ID (m : Manager) (w : World)
    (unmarshal : String → Except String (Int × Int)) (update : String → Error)
    (key : String × String) (a : Account) :
    (applyQuota m w unmarshal update key a).ID = a.ID := by
  unfold applyQuota
  split
  · split <;> rfl
  · rfl

theorem refreshLoop_spec (m : Manager) (w : World)
    (unmarshal : String → Except String (Int × Int)) (wr : Bool) (update : String → Error) :
    ∀ (todo : List (String × String)) (db : DB), (todo.map Prod.fst).Nodup →
      (refreshLoop m w unmarshal wr update todo db).1.accounts =
          db.accounts.map (fun a =>
            match todo.find? (fun k => decide (k.1 = a.ID)) with
            | some k =>
              applyQuota m w unmarshal (fun id => execUnderCursor wr (update id)) k a
            | none => a) ∧
        (refreshLoop m w unmarshal wr update todo db).1.storage_pools = db.storage_pools ∧
        (refreshLoop m w unmarshal wr update todo db).1.pool_accounts = db.pool_accounts ∧
        (refreshLoop m w unmarshal wr update todo db).2 =
          todo.map (fun k => aboutCmd m k.1 k.2) := by
  intro todo
  induction todo with
  | nil =>
    intro db _
    simp [refreshLoop]
  | cons k rest ih =>
    intro db hnd
    obtain ⟨id, accountType⟩ := k
    simp only [List.map_cons, List.nodup_cons] at hnd
    have hstep : ∀ db1 : DB, db1.storage_pools = db.storage_pools →
        db1.pool_accounts = db.pool_accounts →
        db1.accounts = db.accounts.map (fun a =>
          if a.ID = id then
            applyQuota m w unmarshal (fun id => execUnderCursor wr (update id))
              (id, accountType) a
          else a) →
        (refreshLoop m w unmarshal wr update rest db1).1.accounts =
            db.accounts.map (fun a =>
              match ((id, accountType) :: rest).find? (fun k => decide (k.1 = a.ID)) with
              | some k =>
                applyQuota m w unmarshal (fun id => execUnderCursor wr (update id)) k a
              | none => a) ∧
          (refreshLoop m w unmarshal wr update rest db1).1.storage_pools = db.storage_pools ∧
          (refreshLoop m w unmarshal wr update rest db1).1.pool_accounts = db.pool_accounts ∧
          aboutCmd m id accountType :: (refreshLoop m w unmarshal wr update rest db1).2 =
            ((id, accountType) :: rest).map (fun k => aboutCmd m k.1 k.2) := by
      intro db1 hp hpa hacc
      obtain ⟨h1, h2, h3, h4⟩ := ih db1 hnd.2
      refine ⟨?_, h2.trans hp, h3.trans hpa, by rw [h4]; rfl⟩
      rw [h1, hacc, List.map_map]
      apply List.map_congr_left
      intro a _
      simp only [Function.comp]
      by_cases ha : a.ID = id
      · have hnone : rest.find? (fun k => decide (k.1 = a.ID)) = none := by
          rw [List.find?_eq_none]
          intro k hk hka
          apply hnd.1
          rw [← ha, ← of_decide_eq_true hka]
          exact List.mem_map.2 ⟨k, hk, rfl⟩
        simp [ha, List.find?, applyQuota_ID]
        rw [ha] at hnone
        simp [hnone]
      · have hne : ¬ id = a.ID := fun h => ha h.symm
        simp [ha, List.find?, hne]
    unfold refreshLoop
    cases hq : GetQuota m w unmarshal id accountType with
    | error e =>
      refine hstep db rfl rfl ?_
      symm
      conv_rhs => rw [← List.map_id db.accounts]
      apply List.map_congr_left
      intro a _
      by_cases ha : a.ID = id
      · simp [ha, applyQuota, hq]
      · simp [ha]
    | ok tu =>
      obtain ⟨total, used⟩ := tu
      dsimp only
      cases hu : execUnderCursor wr (update id) with
      | some e =>
        refine hstep db rfl rfl ?_
        symm
        conv_rhs => rw [← List.map_id db.accounts]
        apply List.map_congr_left
        intro a _
        by_cases ha : a.ID = id
        · simp [ha, applyQuota, hq, hu]
        · simp [ha]
      | none =>
        refine hstep (setQuota db id total used) rfl rfl ?_
        unfold setQuota
        dsimp only
        apply List.map_congr_left
        intro a _
        by_cases ha : a.ID = id
        · simp [ha, applyQuota, hq, hu]
        · simp [ha]

theorem refreshLoop_locked (m : Manager) (w : World)
    (unmarshal : String → Except String (Int × Int)) (update : String → Error) :
    ∀ (todo : List (String × String)) (db : DB),
      refreshLoop m w unmarshal false update todo db =
        (db, todo.map (fun k => aboutCmd m k.1 k.2)) := by
  intro todo
  induction todo with
  | nil => intro db; rfl
  | cons k rest ih =>
    intro db
    obtain ⟨id, accountType⟩ := k
    unfold refreshLoop
    cases GetQuota m w unmarshal id accountType with
    | error e => simp [ih]
    | ok tu =>
      obtain ⟨total, used⟩ := tu
      simp [execUnderCursor, ih]

theorem insertPoolAccount_iff (fk : Bool) (db : DB) (row : PoolAccount) :
    (∃ db1, insertPoolAccount fk db row = .ok db1) ↔
      (∀ pa ∈ db.pool_accounts, ¬ (pa.PoolID = row.PoolID ∧ pa.AccountID = row.AccountID)) ∧
      (fk = true → (∃ p ∈ db.storage_pools, p.ID = row.PoolID) ∧
        (∃ a ∈ db.accounts, a.ID = row.AccountID)) := by
  unfold insertPoolAccount
  by_cases hdup : db.pool_accounts.any
      (fun pa => decide (pa.PoolID = row.PoolID ∧ pa.AccountID = row.AccountID)) = true
  · rw [if_pos hdup]
    constructor
    · rintro ⟨db1, h⟩
      cases h
    · rintro ⟨hfresh, -⟩
      simp only [List.any_eq_true, decide_eq_true_eq] at hdup
      obtain ⟨pa, hpa, hc⟩ := hdup
      exact absurd hc (hfresh pa hpa)
  · rw [if_neg hdup]
    have hfresh : ∀ pa ∈ db.pool_accounts,
        ¬ (pa.PoolID = row.PoolID ∧ pa.AccountID = row.AccountID) := by
      intro pa hpa hc
      apply hdup
      simp only [List.any_eq_true, decide_eq_true_eq]
      exact ⟨pa, hpa, hc⟩
    by_cases hfk : fk = true ∧
        ¬ (db.storage_pools.any (fun p => decide (p.ID = row.PoolID)) = true ∧
          db.accounts.any (fun a => decide (a.ID = row.AccountID)) = true)
    · rw [if_pos hfk]
      constructor
      · rintro ⟨db1, h⟩
        cases h
      · rintro ⟨-, hreq⟩
        exfalso
        apply hfk.2
        simpa [List.any_eq_true] using hreq hfk.1
    · rw [if_neg hfk]
      refine ⟨fun _ => ⟨hfresh, ?_⟩, fun _ => ⟨_, rfl⟩⟩
      intro hfk1
      have : db.storage_pools.any (fun p => decide (p.ID = row.PoolID)) = true ∧
          db.accounts.any (fun a => decide (a.ID = row.AccountID)) = true := by
        by_contra hcon
        exact hfk ⟨hfk1, hcon⟩
      simpa [List.any_eq_true] using this

theorem insertAccounts_iff (fk : Bool) (q : Nat → Error) (poolID : String) :
    ∀ (ids : List String) (i : Nat) (db : DB),
      (∃ p ∈ db.storage_pools, p.ID = poolID) →
      ((∃ db2, insertAccounts fk q poolID ids i db = .ok db2) ↔
        (∀ k, k < ids.length → q (i + k) = none) ∧ ids.Nodup ∧
        (∀ a ∈ ids, ∀ pa ∈ db.pool_accounts, ¬ (pa.PoolID = poolID ∧ pa.AccountID = a)) ∧
        (fk = true → ∀ a ∈ ids, ∃ acc ∈ db.accounts, acc.ID = a)) := by
  intro ids
  induction ids with
  | nil =>
    intro i db _
    simp [insertAccounts]
  | cons a rest ih =>
    intro i db hpool
    have hrow := insertPoolAccount_iff fk db ⟨poolID, a, (i : Int)⟩
    simp only [insertAccounts]
    constructor
    · rintro ⟨db2, h⟩
      split at h
      · cases h
      · rename_i hq
        split at h
        · cases h
        · rename_i db1 hins
          obtain ⟨hfresh, hfk⟩ := hrow.1 ⟨db1, hins⟩
          obtain ⟨hdb1, -⟩ := insertPoolAccount_ok hins
          have hpool1 : ∃ p ∈ db1.storage_pools, p.ID = poolID := by
            rw [hdb1]
            exact hpool
          have hacc1 : db1.accounts = db.accounts := by rw [hdb1]
          have hpa1 : db1.pool_accounts =
              db.pool_accounts ++ [⟨poolID, a, (i : Int)⟩] := by rw [hdb1]
          obtain ⟨hq2, hnd, hfresh2, hfk2⟩ := (ih (i + 1) db1 hpool1).1 ⟨db2, h⟩
          rw [hpa1] at hfresh2
          rw [hacc1] at hfk2
          refine ⟨?_, List.nodup_cons.2 ⟨?_, hnd⟩, ?_, ?_⟩
          · intro k hk
            cases k with
            | zero => exact hq
            | succ k =>
              have := hq2 k (Nat.lt_of_succ_lt_succ hk)
              rw [← this]
              congr 1
              omega
          · intro hmem
            exact hfresh2 a hmem ⟨poolID, a, (i : Int)⟩ (by simp) ⟨rfl, rfl⟩
          · intro b hb pa hpa
            rcases List.mem_cons.1 hb with rfl | hb
            · exact hfresh pa hpa
            · exact hfresh2 b hb pa (by simp [hpa])
          · intro hfk1 b hb
            rcases List.mem_cons.1 hb with rfl | hb
            · exact (hfk hfk1).2
            · exact hfk2 hfk1 b hb
    · rintro ⟨hq, hnd, hfresh, hfk⟩
      have hq0 : q i = none := hq 0 (Nat.succ_pos _)
      obtain ⟨hna, hnd2⟩ := List.nodup_cons.1 hnd
      obtain ⟨db1, hins⟩ := hrow.2
        ⟨hfresh a (List.mem_cons_self _ _),
          fun hfk1 => ⟨hpool, hfk hfk1 a (List.mem_cons_self _ _)⟩⟩
      obtain ⟨hdb1, -⟩ := insertPoolAccount_ok hins
      have hpool1 : ∃ p ∈ db1.storage_pools, p.ID = poolID := by
        rw [hdb1]
        exact hpool
      have hacc1 : db1.accounts = db.accounts := by rw [hdb1]
      have hpa1 : db1.pool_accounts =
          db.pool_accounts ++ [⟨poolID, a, (i : Int)⟩] := by rw [hdb1]
      have hrest : ∃ db2, insertAccounts fk q poolID rest (i + 1) db1 = .ok db2 := by
        refine (ih (i + 1) db1 hpool1).2 ⟨?_, hnd2, ?_, ?_⟩
        · intro k hk
          have := hq (k + 1) (Nat.succ_lt_succ hk)
          rw [← this]
          congr 1
          omega
        · intro b hb pa hpa
          rw [hpa1] at hpa
          rcases List.mem_append.1 hpa with hpa | hpa
          · exact hfresh b (List.mem_cons_of_mem _ hb) pa hpa
          · rw [List.mem_singleton] at hpa
            subst hpa
            rintro ⟨-, hab⟩
            exact hna (by simpa [← hab] using hb)
        · intro hfk1 b hb
          rw [hacc1]
          exact hfk hfk1 b (List.mem_cons_of_mem _ hb)
      obtain ⟨db2, hdb2⟩ := hrest
      exact ⟨db2, by simp only [hq0, hins, hdb2]⟩

theorem CreatePool_succeeds_iff (s : StorageService) (q : CreateQ) (db : DB) (id : String)
    (createdAt updatedAt : Nat) (req : CreatePoolRequest) :
    (∃ pool, (CreatePool s q db id createdAt updatedAt req).2 = .ok pool) ↔
      q.begin_ = none ∧ q.insertPool = none ∧ (∀ p ∈ db.storage_pools, p.ID ≠ id) ∧
      (∀ k, k < req.AccountIDs.length → q.insertAccount k = none) ∧
      req.AccountIDs.Nodup ∧
      (∀ a ∈ req.AccountIDs, ∀ pa ∈ db.pool_accounts,
        ¬ (pa.PoolID = id ∧ pa.AccountID = a)) ∧
      (s.foreignKeys = true → ∀ a ∈ req.AccountIDs, ∃ acc ∈ db.accounts, acc.ID = a) ∧
      q.commit = none := by
  unfold CreatePool
  dsimp only
  cases hb : q.begin_ with
  | some e => simp
  | none =>
    cases hip : q.insertPool with
    | some e => simp
    | none =>
      dsimp only
      cases hpool : insertPool db (newPoolRow id createdAt updatedAt req) with
      | error e =>
        have hdup : ¬ ∀ p ∈ db.storage_pools, p.ID ≠ id := by
          intro hfresh
          unfold insertPool at hpool
          split at hpool
          · rename_i hany
            simp only [List.any_eq_true, decide_eq_true_eq] at hany
            obtain ⟨p, hp, hpid⟩ := hany
            exact hfresh p hp hpid
          · cases hpool
        simp [hdup]
      | ok db1 =>
        obtain ⟨hdb1, hfresh⟩ := insertPool_ok hpool
        have hfresh2 : ∀ p ∈ db.storage_pools, p.ID ≠ id := hfresh
        have hpool1 : ∃ p ∈ db1.storage_pools, p.ID = id := by
          rw [hdb1]
          exact ⟨newPoolRow id createdAt updatedAt req, by simp, rfl⟩
        have hacc1 : db1.accounts = db.accounts := by rw [hdb1]
        have hpa1 : db1.pool_accounts = db.pool_accounts := by rw [hdb1]
        have hiff := insertAccounts_iff s.foreignKeys q.insertAccount id req.AccountIDs 0
          db1 hpool1
        rw [hacc1, hpa1] at hiff
        simp only [Nat.zero_add] at hiff
        dsimp only
        cases hacc : insertAccounts s.foreignKeys q.insertAccount id req.AccountIDs 0 db1 with
        | error e =>
          have hno : ¬ ∃ db2, insertAccounts s.foreignKeys q.insertAccount id
              req.AccountIDs 0 db1 = .ok db2 := by
            rintro ⟨db2, h⟩
            rw [hacc] at h
            cases h
          rw [hiff] at hno
          constructor
          · rintro ⟨pool, h⟩
            cases h
          · rintro ⟨-, -, -, h1, h2, h3, h4, -⟩
            exact absurd ⟨h1, h2, h3, h4⟩ hno
        | ok db2 =>
          obtain ⟨h1, h2, h3, h4⟩ := hiff.1 ⟨db2, hacc⟩
          dsimp only
          cases hc : q.commit with
          | some e => simp
          | none =>
            simp only [true_and, and_true]
            exact ⟨fun _ => ⟨hfresh2, h1, h2, h3, h4⟩, fun _ => ⟨_, rfl⟩⟩

theorem wrap64_add_left (a b : Int) : wrap64 (wrap64 a + b) = wrap64 (a + b) := by
  unfold wrap64
  omega

theorem wrap64_add_right (a b : Int) : wrap64 (a + wrap64 b) = wrap64 (a + b) := by
  unfold wrap64
  omega

theorem wrap64_sub (a b : Int) : wrap64 (wrap64 a - wrap64 b) = wrap64 (a - b) := by
  unfold wrap64
  omega

theorem wrap64_of_range (a : Int) (h1 : -2 ^ 63 ≤ a) (h2 : a < 2 ^ 63) : wrap64 a = a := by
  unfold wrap64
  omega

theorem sumQuotas_fold (l : List AccountStats) :
    ∀ c u : Int,
      l.foldl (fun acc st => (wrap64 (acc.1 + st.QuotaTotal), wrap64 (acc.2 + st.QuotaUsed)))
          (wrap64 c, wrap64 u) =
        (wrap64 (c + (l.map (fun st => st.QuotaTotal)).sum),
          wrap64 (u + (l.map (fun st => st.QuotaUsed)).sum)) := by
  induction l with
  | nil => intro c u; simp
  | cons st rest ih =>
    intro c u
    simp only [List.foldl_cons, List.map_cons, List.sum_cons]
    rw [wrap64_add_left, wrap64_add_left, ih, add_assoc, add_assoc]

theorem sumQuotas_eq (l : List AccountStats) :
    sumQuotas l =
      (wrap64 (l.map (fun st => st.QuotaTotal)).sum,
        wrap64 (l.map (fun st => st.QuotaUsed)).sum) := by
  have h := sumQuotas_fold l 0 0
  have h0 : wrap64 0 = 0 := by decide
  rw [h0] at h
  simpa [sumQuotas] using h

theorem wrap64_sum_wrap (l : List Int) :
    wrap64 ((l.map wrap64).sum) = wrap64 l.sum := by
  induction l with
  | nil => rfl
  | cons x rest ih =>
    simp only [List.map_cons, List.sum_cons]
    rw [wrap64_add_left, ← wrap64_add_right, ih, wrap64_add_right]

theorem GetStorageStats_fields (db : DB) (qPool : Error) (qAgg : String → Error) :
    (GetStorageStats db none qPool qAgg).AccountStats =
        (db.accounts.insertionSort (fun a b => ¬ (b.Name < a.Name))).map accountStat ∧
      (GetStorageStats db none qPool qAgg).TotalCapacity =
        (sumQuotas (GetStorageStats db none qPool qAgg).AccountStats).1 ∧
      (GetStorageStats db none qPool qAgg).TotalUsed =
        (sumQuotas (GetStorageStats db none qPool qAgg).AccountStats).2 ∧
      (GetStorageStats db none qPool qAgg).TotalFree =
        wrap64 ((GetStorageStats db none qPool qAgg).TotalCapacity -
          (GetStorageStats db none qPool qAgg).TotalUsed) := by
  unfold GetStorageStats GetAccountStats
  dsimp only
  cases GetPoolStats db qPool qAgg <;> exact ⟨rfl, rfl, rfl, rfl⟩

theorem sorted_accounts_sum (db : DB) (f : Account → Int) :
    ((db.accounts.insertionSort (fun a b => ¬ (b.Name < a.Name))).map f).sum =
      (db.accounts.map f).sum :=
  ((List.perm_insertionSort _ db.accounts).map f).sum_eq

theorem StopPool_db (s : StorageService) (w : World) (q : StopQ) (db : DB) (id : String) :
    (StopPool s w q db id).db = db ∨
      (StopPool s w q db id).db = setStopped db id q.stopped.now := by
  unfold StopPool
  split
  · exact Or.inl rfl
  · split
    · exact Or.inl rfl
    · split
      · exact Or.inl rfl
      · dsimp only
        split
        · exact Or.inl rfl
        · exact Or.inr rfl

theorem deletePoolRow_setStopped (fk : Bool) (db : DB) (id : String) (now : Nat) :
    deletePoolRow fk (setStopped db id now) id = deletePoolRow fk db id := by
  unfold deletePoolRow setStopped
  dsimp only
  congr 1
  induction db.storage_pools with
  | nil => rfl
  | cons p rest ih =>
    simp only [ne_eq, decide_not] at ih
    by_cases hp : p.ID = id
    · simp [List.filter, hp, ih]
    · simp [List.filter, hp, ih]

/-- What a successful `DeletePool` leaves: the pool row is gone, the other pool rows and
the accounts are as before, and the membership rows of the pool are gone exactly when the
connection enforces foreign keys. -/
theorem DeletePool_success (s : StorageService) (w : World) (q : DeleteQ) (db : DB)
    (id : String) (h : (DeletePool s w q db id).err = none) :
    (DeletePool s w q db id).db.storage_pools =
        db.storage_pools.filter (fun p => p.ID ≠ id) ∧
      (DeletePool s w q db id).db.accounts = db.accounts ∧
      (DeletePool s w q db id).db.pool_accounts =
        (if s.foreignKeys then db.pool_accounts.filter (fun pa => pa.PoolID ≠ id)
          else db.pool_accounts) := by
  have hstop := StopPool_db s w q.stop db id
  have hdb : (DeletePool s w q db id).err = none →
      (DeletePool s w q db id).db = deletePoolRow s.foreignKeys db id := by
    unfold DeletePool
    split
    · intro h
      cases h
    · split
      · split
        · intro h
          cases h
        · rename_i db1 c1 heq
          rw [heq] at hstop
          dsimp only at hstop
          split
          · intro h
            cases h
          · intro _
            dsimp only
            rcases hstop with hst | hst
            · rw [hst]
            · rw [hst, deletePoolRow_setStopped]
      · split
        · intro h
          cases h
        · intro _
          rfl
  rw [hdb h]
  exact ⟨rfl, rfl, rfl⟩

theorem findPool_setRunning (db : DB) (id mountPath : String) (now : Nat) :
    (setRunning db id mountPath now).findPool id =
      (db.findPool id).map (fun p =>
        { p with Status := "running", MountPath := some mountPath, UpdatedAt := now }) := by
  unfold setRunning DB.findPool
  dsimp only
  rw [find_map_of_id _ (by intro p; by_cases hp : p.ID = id <;> simp [hp])]
  cases hfind : db.storage_pools.find? (fun p => decide (p.ID = id)) with
  | none => rfl
  | some row =>
    have hrow : row.ID = id := by simpa using List.find?_some hfind
    simp [hrow]

/-- The path a successful `StartPool` persists: "/mnt/pooled-storage/" followed by the
pool id, whatever the manager's mount root. -/
theorem StartPool_success_path (s : StorageService) (w : World) (q : StartQ) (db : DB)
    (id : String) (h : (StartPool s w q db id).err = none) :
    (StartPool s w q db id).db.poolStatus id = some "running" ∧
      (StartPool s w q db id).db.poolMountPath id =
        some (some ("/mnt/pooled-storage/" ++ id)) := by
  revert h
  unfold StartPool
  split
  · intro h
    cases h
  · rename_i pool hget
    obtain ⟨row, hfind, hid, -, hrow⟩ := GetPool_ok hget
    split
    · intro h
      cases h
    · dsimp only
      split
      · intro h
        cases h
      · split
        · intro h
          cases h
        · split
          · intro h
            cases h
          · intro _
            have hf1 := findPool_updatePoolStatus db q.starting id "starting"
            rw [hfind] at hf1
            simp only [DB.poolStatus, DB.poolMountPath, findPool_setRunning, hf1, hid, hrow]
            cases q.starting.err <;> simp

/-! ### C1: mount path and status -/

/-- C1: in every database reachable from a store without pools by any sequence of
CreatePool, StartPool, StopPool, DeletePool, AddAccountToPool and RemoveAccountFromPool
calls, each with arbitrary outcomes of the external commands and of the database
statements, every pool row has a non-null `mount_path` exactly when its status is
"running". -/
theorem mount_path_iff_running (s : StorageService) (db : DB) (h : Reachable s db) :
    ∀ p ∈ db.storage_pools, (p.MountPath ≠ none ↔ p.Status = "running") :=
  fun p hp => h.poolsOk.2 p hp

/-- The invariant of C1 at the reachable store `exStarted`, whose pool is running with a
mount path. -/
theorem mount_path_iff_running_witness :
    (exStarted.storage_pools.map (fun p => (p.Status, p.MountPath))
        = [("running", some "/mnt/pooled-storage/p1")]) ∧
      ∀ p ∈ exStarted.storage_pools, (p.MountPath ≠ none ↔ p.Status = "running") :=
  ⟨by decide,
    mount_path_iff_running exService exStarted
      (Reachable.step _ (Reachable.step _ (Reachable.init exAccounts)))⟩

/-! ### C2: starting a pool without members -/

/-- C2, as stated, fails: the stopped pool `p0` of `exEmptyPool` has no member, `StartPool`
returns the composition error, and the persisted status afterwards is "error", not the
prior "stopped". -/
theorem start_empty_pool_keeps_status_counterexample :
    (GetPool exEmptyPool exGetQ "p0").toOption.map (fun p => (p.Status, p.Accounts))
        = some ("stopped", []) ∧
      (StartPool exService World.fresh exStartQ exEmptyPool "p0").err
        = some "failed to create union: no accounts in pool" ∧
      (StartPool exService World.fresh exStartQ exEmptyPool "p0").db.poolStatus "p0"
        = some "error" ∧
      (StartPool exService World.fresh exStartQ exEmptyPool "p0").db.poolStatus "p0"
        ≠ exEmptyPool.poolStatus "p0" := by
  decide

/-- C2, amended: for a pool that `GetPool` returns with a status other than "running" and
without accounts, `StartPool` returns the error "failed to create union: no accounts in
pool" and runs no command; afterwards the persisted status is not "running", it is
"error" whenever the statement writing "error" is executed, and `mount_path`, the
accounts and the memberships are as before. -/
theorem start_empty_pool_fails (s : StorageService) (w : World) (q : StartQ) (db : DB)
    (id : String) (pool : StoragePool) (hget : GetPool db q.get id = .ok pool)
    (hnr : pool.Status ≠ "running") (h0 : pool.Accounts = []) :
    (StartPool s w q db id).err = some "failed to create union: no accounts in pool" ∧
      (StartPool s w q db id).cmds = [] ∧
      (StartPool s w q db id).db.poolStatus id ≠ some "running" ∧
      (q.error.err = none → (StartPool s w q db id).db.poolStatus id = some "error") ∧
      (StartPool s w q db id).db.poolMountPath id = db.poolMountPath id ∧
      (StartPool s w q db id).db.accounts = db.accounts ∧
      (StartPool s w q db id).db.pool_accounts = db.pool_accounts := by
  obtain ⟨row, hfind, -, hstatus, -⟩ := GetPool_ok hget
  have hcu : CreateUnion s.rclone w pool = ([], some "no accounts in pool") := by
    simp [CreateUnion, h0]
  have hrun : StartPool s w q db id =
      ⟨updatePoolStatus (updatePoolStatus db q.starting id "starting") q.error id "error",
        [], some ("failed to create union: " ++ "no accounts in pool")⟩ := by
    unfold StartPool
    rw [hget]
    simp only [hnr, if_false, hcu]
  have hrow : row.Status ≠ "running" := hstatus ▸ hnr
  rw [hrun]
  refine ⟨rfl, rfl, ?_, ?_, ?_, ?_, ?_⟩
  · simp only [DB.poolStatus, findPool_updatePoolStatus, hfind]
    cases q.error.err <;> cases q.starting.err <;> simp [hrow]
  · intro hw
    simp only [DB.poolStatus, findPool_updatePoolStatus, hfind, hw]
    cases q.starting.err <;> simp
  · simp only [DB.poolMountPath, findPool_updatePoolStatus, hfind]
    cases q.error.err <;> cases q.starting.err <;> simp
  · rw [(updatePoolStatus_other _ _ _ _).1, (updatePoolStatus_other _ _ _ _).1]
  · rw [(updatePoolStatus_other _ _ _ _).2, (updatePoolStatus_other _ _ _ _).2]

/-- The amended C2 at the stopped, memberless pool `p0` of `exEmptyPool`. -/
theorem start_empty_pool_fails_witness :
    (StartPool exService World.fresh exStartQ exEmptyPool "p0").err
        = some "failed to create union: no accounts in pool" ∧
      (StartPool exService World.fresh exStartQ exEmptyPool "p0").cmds = [] ∧
      (StartPool exService World.fresh exStartQ exEmptyPool "p0").db.poolStatus "p0"
        ≠ some "running" ∧
      (exStartQ.error.err = none →
        (StartPool exService World.fresh exStartQ exEmptyPool "p0").db.poolStatus "p0"
          = some "error") ∧
      (StartPool exService World.fresh exStartQ exEmptyPool "p0").db.poolMountPath "p0"
        = exEmptyPool.poolMountPath "p0" ∧
      (StartPool exService World.fresh exStartQ exEmptyPool "p0").db.accounts
        = exEmptyPool.accounts ∧
      (StartPool exService World.fresh exStartQ exEmptyPool "p0").db.pool_accounts
        = exEmptyPool.pool_accounts :=
  start_empty_pool_fails exService World.fresh exStartQ exEmptyPool "p0"
    ⟨"p0", "empty", "union", false, false, "100M", "", "stopped", [], 0, 0⟩
    rfl (by decide) rfl

/-! ### C3: stopping a pool that is not running -/

/-- C3: for an existing pool whose persisted status is anything other than "running",
`StopPool` returns the error "pool not running", runs no command (no unmount, no
union-config deletion) and leaves the whole database unchanged. -/
theorem stop_not_running (s : StorageService) (w : World) (q : StopQ) (db : DB)
    (id st : String) (hst : db.poolStatus id = some st) (hne : st ≠ "running")
    (hread : q.get.pool = none) :
    StopPool s w q db id = ⟨db, [], some "pool not running"⟩ := by
  obtain ⟨pool, hget, hs, -⟩ := GetPool_of_status hst hread
  unfold StopPool
  rw [hget]
  simp [hs, hne]

/-- C3 at the created, never started pool `p1` of `exCreated`, in a world where every
command would succeed. -/
theorem stop_not_running_witness :
    exCreated.poolStatus "p1" = some "stopped" ∧
      StopPool exService World.allOk exStopQ exCreated "p1"
        = ⟨exCreated, [], some "pool not running"⟩ :=
  ⟨by decide,
    stop_not_running exService World.allOk exStopQ exCreated "p1" "stopped" (by decide)
      (by decide) rfl⟩

/-! ### C4: deleting a running pool whose unmount fails -/

/-- C4: for a pool whose persisted status is "running", when both `fusermount -u` and
`umount` fail on its mount point, `DeletePool` returns the unmount error, runs only those
two commands, and leaves the database unchanged: the pool row is still there with status
"running" and its `mount_path`, and so are the membership rows. -/
theorem delete_running_unmount_fails (s : StorageService) (w : World) (q : DeleteQ)
    (db : DB) (id : String) (hst : db.poolStatus id = some "running")
    (hread : q.get.pool = none) (hread2 : q.stop.get.pool = none)
    (h1 : (w.run ["fusermount", "-u", filepathJoin s.rclone.mountPath id]).err ≠ none)
    (h2 : (w.run ["umount", filepathJoin s.rclone.mountPath id]).err ≠ none) :
    (DeletePool s w q db id).err ≠ none ∧
      (DeletePool s w q db id).err =
        (w.run ["umount", filepathJoin s.rclone.mountPath id]).err.map
          (fun e => "failed to unmount pool: " ++ e) ∧
      (DeletePool s w q db id).cmds =
        [["fusermount", "-u", filepathJoin s.rclone.mountPath id],
         ["umount", filepathJoin s.rclone.mountPath id]] ∧
      (DeletePool s w q db id).db = db ∧
      (DeletePool s w q db id).db.poolStatus id = some "running" := by
  obtain ⟨pool, hget, hs, hid⟩ := GetPool_of_status hst hread
  obtain ⟨pool2, hget2, hs2, hid2⟩ := GetPool_of_status hst hread2
  obtain ⟨e1, he1⟩ := Option.ne_none_iff_exists'.1 h1
  obtain ⟨e2, he2⟩ := Option.ne_none_iff_exists'.1 h2
  have hun : UnmountPool s.rclone w pool2 =
      ([["fusermount", "-u", filepathJoin s.rclone.mountPath id],
        ["umount", filepathJoin s.rclone.mountPath id]], some e2) := by
    simp [UnmountPool, hid2, he1, he2]
  have hstop : StopPool s w q.stop db id =
      ⟨db, [["fusermount", "-u", filepathJoin s.rclone.mountPath id],
        ["umount", filepathJoin s.rclone.mountPath id]],
        some ("failed to unmount pool: " ++ e2)⟩ := by
    unfold StopPool
    rw [hget2]
    simp [hs2, hun]
  have hdel : DeletePool s w q db id =
      ⟨db, [["fusermount", "-u", filepathJoin s.rclone.mountPath id],
        ["umount", filepathJoin s.rclone.mountPath id]],
        some ("failed to unmount pool: " ++ e2)⟩ := by
    unfold DeletePool
    rw [hget]
    simp [hs, hstop]
  rw [hdel]
  exact ⟨by simp, by simp [he2], rfl, rfl, hst⟩

/-- C4 at the running pool `p1` of `exStarted`, in a world where every command fails. -/
theorem delete_running_unmount_fails_witness :
    exStarted.poolStatus "p1" = some "running" ∧
      (DeletePool exService World.broken exDeleteQ exStarted "p1").err ≠ none ∧
      (DeletePool exService World.broken exDeleteQ exStarted "p1").err =
        (World.broken.run
          ["umount", filepathJoin exService.rclone.mountPath "p1"]).err.map
          (fun e => "failed to unmount pool: " ++ e) ∧
      (DeletePool exService World.broken exDeleteQ exStarted "p1").cmds =
        [["fusermount", "-u", filepathJoin exService.rclone.mountPath "p1"],
         ["umount", filepathJoin exService.rclone.mountPath "p1"]] ∧
      (DeletePool exService World.broken exDeleteQ exStarted "p1").db = exStarted ∧
      (DeletePool exService World.broken exDeleteQ exStarted "p1").db.poolStatus "p1"
        = some "running" :=
  ⟨by decide,
    delete_running_unmount_fails exService World.broken exDeleteQ exStarted "p1"
      (by decide) rfl rfl (by decide) (by decide)⟩

/-! ### C5: usage percent -/

/-- C5, as stated, fails: an account row with `quota_total = 1` and `quota_used = 2` has
`total > 0` and a usage percent of 200; a pool aggregate of the same values too; and with
`quota_used = -1` the percent is negative. -/
theorem usage_percent_bounds_counterexample :
    (accountStat ⟨"A", "first", "google", "a@example.org", 1, 2, "active", 0, 0⟩).QuotaTotal > 0 ∧
      (accountStat ⟨"A", "first", "google", "a@example.org", 1, 2, "active", 0, 0⟩).UsagePercent
        = 200 ∧
      ¬ ((accountStat ⟨"A", "first", "google", "a@example.org", 1, 2, "active", 0, 0⟩).UsagePercent
        ≤ 100) ∧
      ¬ (0 ≤
        (accountStat ⟨"A", "first", "google", "a@example.org", 1, -1, "active", 0, 0⟩).UsagePercent) ∧
      (poolStat ⟨"p0", "empty", "union", false, false, "100M", none, "stopped", 0, 0⟩ 1
        (some 1) (some 2)).UsagePercent = 200 := by
  norm_num [accountStat, poolStat]

/-- C5, amended: the usage percent of an account row and of a pool aggregate is
`used / total * 100` when `total > 0`, so it lies in `[0, 100]` whenever moreover
`0 ≤ used ≤ total`; it is exactly 0 whenever `total ≤ 0`. -/
theorem usage_percent_bounds (a : Account) (row : PoolRow) (n : Nat)
    (totalCap totalUsed : Option Int) :
    (a.QuotaTotal > 0 →
        (accountStat a).UsagePercent = (a.QuotaUsed : ℚ) / (a.QuotaTotal : ℚ) * 100) ∧
      (totalCap.getD 0 > 0 →
        (poolStat row n totalCap totalUsed).UsagePercent =
          ((totalUsed.getD 0 : Int) : ℚ) / ((totalCap.getD 0 : Int) : ℚ) * 100) ∧
      (a.QuotaTotal > 0 → 0 ≤ a.QuotaUsed → a.QuotaUsed ≤ a.QuotaTotal →
        0 ≤ (accountStat a).UsagePercent ∧ (accountStat a).UsagePercent ≤ 100) ∧
      (a.QuotaTotal ≤ 0 → (accountStat a).UsagePercent = 0) ∧
      (totalCap.getD 0 > 0 → 0 ≤ totalUsed.getD 0 → totalUsed.getD 0 ≤ totalCap.getD 0 →
        0 ≤ (poolStat row n totalCap totalUsed).UsagePercent ∧
          (poolStat row n totalCap totalUsed).UsagePercent ≤ 100) ∧
      (totalCap.getD 0 ≤ 0 → (poolStat row n totalCap totalUsed).UsagePercent = 0) := by
  have key : ∀ t u : Int, t > 0 → 0 ≤ u → u ≤ t →
      0 ≤ (u : ℚ) / (t : ℚ) * 100 ∧ (u : ℚ) / (t : ℚ) * 100 ≤ 100 := by
    intro t u ht hu hut
    have ht' : (0 : ℚ) < t := by exact_mod_cast ht
    have hu' : (0 : ℚ) ≤ u := by exact_mod_cast hu
    have hut' : (u : ℚ) ≤ t := by exact_mod_cast hut
    have h1 : (u : ℚ) / t ≤ 1 := (div_le_one ht').2 hut'
    have h0 : 0 ≤ (u : ℚ) / t := div_nonneg hu' ht'.le
    constructor
    · positivity
    · linarith
  have hacc : a.QuotaTotal > 0 →
      (accountStat a).UsagePercent = (a.QuotaUsed : ℚ) / (a.QuotaTotal : ℚ) * 100 := by
    intro ht
    simp only [accountStat, ht, if_true]
  have hpool : totalCap.getD 0 > 0 →
      (poolStat row n totalCap totalUsed).UsagePercent =
        ((totalUsed.getD 0 : Int) : ℚ) / ((totalCap.getD 0 : Int) : ℚ) * 100 := by
    intro ht
    simp only [poolStat, ht, if_true]
  refine ⟨hacc, hpool, ?_, ?_, ?_, ?_⟩
  · intro ht hu hut
    rw [hacc ht]
    exact key _ _ ht hu hut
  · intro ht
    simp [accountStat, not_lt.2 ht]
  · intro ht hu hut
    rw [hpool ht]
    exact key _ _ ht hu hut
  · intro ht
    simp [poolStat, not_lt.2 ht]

/-- The amended C5 at the account `A` (40 of 100 used) and at an empty aggregate. -/
theorem usage_percent_bounds_witness :
    (accountStat ⟨"A", "first", "google", "a@example.org", 100, 40, "active", 0, 0⟩).UsagePercent
        = ((40 : Int) : ℚ) / ((100 : Int) : ℚ) * 100 ∧
      (0 ≤ (accountStat ⟨"A", "first", "google", "a@example.org", 100, 40, "active", 0, 0⟩).UsagePercent
        ∧ (accountStat ⟨"A", "first", "google", "a@example.org", 100, 40, "active", 0, 0⟩).UsagePercent
          ≤ 100) ∧
      (poolStat ⟨"p0", "empty", "union", false, false, "100M", none, "stopped", 0, 0⟩ 0
        none none).UsagePercent = 0 :=
  ⟨(usage_percent_bounds ⟨"A", "first", "google", "a@example.org", 100, 40, "active", 0, 0⟩
      ⟨"p0", "empty", "union", false, false, "100M", none, "stopped", 0, 0⟩ 0 none none).1
      (by decide),
    (usage_percent_bounds ⟨"A", "first", "google", "a@example.org", 100, 40, "active", 0, 0⟩
      ⟨"p0", "empty", "union", false, false, "100M", none, "stopped", 0, 0⟩ 0 none none).2.2.1
      (by decide) (by decide) (by decide),
    (usage_percent_bounds ⟨"A", "first", "google", "a@example.org", 100, 40, "active", 0, 0⟩
      ⟨"p0", "empty", "union", false, false, "100M", none, "stopped", 0, 0⟩ 0 none none).2.2.2.2.2
      (by decide)⟩

/-! ### C6: priorities assigned by CreatePool -/

/-- C6: when `CreatePool` returns a pool (all its inserts succeeded) under a generated id
that no membership row carries yet, the request lists no account twice, the membership
rows of the new pool are exactly one row per listed account, the account at 0-based
position `i` with priority `i`, appended to the table; and `GetPoolAccounts` reads back
the listed accounts' rows in the request's order, so that, the listed ids being ids of
account rows, the ids read back are the request's list. -/
theorem create_pool_priorities (s : StorageService) (q : CreateQ) (db db2 : DB)
    (id : String) (createdAt updatedAt : Nat) (req : CreatePoolRequest) (pool : StoragePool)
    (h : CreatePool s q db id createdAt updatedAt req = (db2, .ok pool))
    (hfresh : ∀ pa ∈ db.pool_accounts, pa.PoolID ≠ id)
    (hpk : (db.accounts.map (fun a => a.ID)).Nodup)
    (hex : ∀ a ∈ req.AccountIDs, ∃ acc ∈ db.accounts, acc.ID = a) :
    req.AccountIDs.Nodup ∧
      db2.pool_accounts = db.pool_accounts ++
        req.AccountIDs.enum.map (fun ka => (⟨id, ka.2, (ka.1 : Int)⟩ : PoolAccount)) ∧
      db2.pool_accounts.filter (fun pa => pa.PoolID = id) =
        req.AccountIDs.enum.map (fun ka => (⟨id, ka.2, (ka.1 : Int)⟩ : PoolAccount)) ∧
      GetPoolAccounts db2 none id =
        .ok (req.AccountIDs.flatMap (fun a => db.accounts.filter (fun acc => acc.ID = a))) ∧
      (req.AccountIDs.flatMap (fun a => db.accounts.filter (fun acc => acc.ID = a))).map
        (fun acc => acc.ID) = req.AccountIDs := by
  have hnd : req.AccountIDs.Nodup := by
    unfold CreatePool at h
    dsimp only at h
    split at h
    · cases h
    · split at h
      · cases h
      · split at h
        · cases h
        · split at h
          · cases h
          · rename_i db3 hacc
            exact (insertAccounts_fresh _ _ _ _ hacc).1
  rcases CreatePool_cases s q db id createdAt updatedAt req with ⟨-, e, he⟩ | ⟨-, ha, -, hpa, -⟩
  · rw [h] at he
    cases he
  · rw [h] at ha hpa
    dsimp only at ha hpa
    have hfilter : db2.pool_accounts.filter (fun pa => pa.PoolID = id) =
        req.AccountIDs.enum.map (fun ka => (⟨id, ka.2, (ka.1 : Int)⟩ : PoolAccount)) := by
      rw [hpa, List.filter_append]
      have hold : db.pool_accounts.filter (fun pa => decide (pa.PoolID = id)) = [] := by
        rw [List.filter_eq_nil_iff]
        intro pa hpa2
        simpa using hfresh pa hpa2
      rw [hold, List.nil_append, List.enum, List.filter_eq_self]
      intro pa hpa2
      obtain ⟨ka, -, rfl⟩ := List.mem_map.1 hpa2
      simp
    refine ⟨hnd, hpa, hfilter, ?_, ?_⟩
    · unfold GetPoolAccounts orderByPriority
      dsimp only
      rw [hfilter, List.enum, List.Sorted.insertionSort_eq (enumRows_sorted id _ 0), ha]
      congr 1
      have hids := enumRows_accountIDs id req.AccountIDs 0
      conv_rhs => rw [← hids]
      simp only [List.flatMap_map, List.map_map, Function.comp]
    · have : ∀ ids : List String, (∀ a ∈ ids, ∃ acc ∈ db.accounts, acc.ID = a) →
          (ids.flatMap (fun a => db.accounts.filter (fun acc => acc.ID = a))).map
            (fun acc => acc.ID) = ids := by
        intro ids
        induction ids with
        | nil => intro _; rfl
        | cons a rest ih =>
          intro hall
          rw [List.flatMap_cons, List.map_append,
            filter_id_of_nodup db.accounts hpk a (hall a (List.mem_cons_self _ _)),
            ih (fun b hb => hall b (List.mem_cons_of_mem _ hb))]
          rfl
      exact this _ hex

/-- C6 at the request `exRequest` for accounts `A` and `B`: the rows are `(p1, A, 0)` and
`(p1, B, 1)`. -/
theorem create_pool_priorities_witness :
    exCreated.pool_accounts = [⟨"p1", "A", 0⟩, ⟨"p1", "B", 1⟩] ∧
      (exRequest.AccountIDs.Nodup ∧
      exCreated.pool_accounts = ([] : List PoolAccount) ++
        exRequest.AccountIDs.enum.map (fun ka => (⟨"p1", ka.2, (ka.1 : Int)⟩ : PoolAccount)) ∧
      exCreated.pool_accounts.filter (fun pa => pa.PoolID = "p1") =
        exRequest.AccountIDs.enum.map (fun ka => (⟨"p1", ka.2, (ka.1 : Int)⟩ : PoolAccount)) ∧
      GetPoolAccounts exCreated none "p1" =
        .ok (exRequest.AccountIDs.flatMap
          (fun a => exAccounts.filter (fun acc => acc.ID = a))) ∧
      (exRequest.AccountIDs.flatMap (fun a => exAccounts.filter (fun acc => acc.ID = a))).map
        (fun acc => acc.ID) = exRequest.AccountIDs) :=
  ⟨by decide,
    create_pool_priorities exService exCreateQ ⟨exAccounts, [], []⟩ exCreated "p1" 0 0
      exRequest
      ⟨"p1", "pool", "eplus", false, false, "100M", "", "stopped", [], 0, 0⟩
      rfl (by simp) (by decide) (by decide)⟩

/-! ### C7: priority assigned by AddAccountToPool -/

/-- C7: a successful `AddAccountToPool` appends exactly one membership row
`(pool, account, p)` and changes nothing else in the database; the account was not a
member before; `p` is 1 when the pool has no membership row (maximum taken as 0) and
otherwise `p - 1` is the greatest priority among the pool's rows. -/
theorem add_account_priority (s : StorageService) (q : Error) (db db2 : DB)
    (poolID accountID : String)
    (h : AddAccountToPool s q db poolID accountID = (db2, none)) :
    ∃ p : Int,
      db2 = { db with pool_accounts := db.pool_accounts ++ [⟨poolID, accountID, p⟩] } ∧
      (∀ pa ∈ db.pool_accounts, ¬ (pa.PoolID = poolID ∧ pa.AccountID = accountID)) ∧
      ((∀ pa ∈ db.pool_accounts, pa.PoolID ≠ poolID) → p = 0 + 1) ∧
      ((∃ pa ∈ db.pool_accounts, pa.PoolID = poolID) →
        (∃ pa ∈ db.pool_accounts, pa.PoolID = poolID ∧ pa.Priority + 1 = p) ∧
          ∀ pa ∈ db.pool_accounts, pa.PoolID = poolID → pa.Priority + 1 ≤ p) := by
  obtain ⟨hdb2, hnew⟩ := AddAccountToPool_ok h
  refine ⟨_, hdb2, hnew, ?_, ?_⟩
  · intro hnone
    cases hm : maxPriority db poolID with
    | none => rfl
    | some m =>
      obtain ⟨⟨pa, hpa, hid, -⟩, -⟩ := maxPriority_some hm
      exact absurd hid (hnone pa hpa)
  · rintro ⟨pa0, hpa0, hid0⟩
    cases hm : maxPriority db poolID with
    | none => exact absurd hid0 (maxPriority_none hm pa0 hpa0)
    | some m =>
      obtain ⟨⟨pa, hpa, hid, hp⟩, hle⟩ := maxPriority_some hm
      refine ⟨⟨pa, hpa, hid, by simp [hp]⟩, ?_⟩
      intro pb hpb hidb
      have := hle pb hpb hidb
      simp only [Option.getD_some]
      omega

/-- C7 at the pool `p1` of `exCreated` after `B` left: `B` joins again with priority
`0 + 1`, next to `(p1, A, 0)`. -/
theorem add_account_priority_witness :
    exRejoined.pool_accounts = [⟨"p1", "A", 0⟩, ⟨"p1", "B", 1⟩] ∧
      ∃ p : Int,
        exRejoined = { (RemoveAccountFromPool none exCreated "p1" "B").1 with
          pool_accounts := (RemoveAccountFromPool none exCreated "p1" "B").1.pool_accounts ++
            [⟨"p1", "B", p⟩] } ∧
        (∀ pa ∈ (RemoveAccountFromPool none exCreated "p1" "B").1.pool_accounts,
          ¬ (pa.PoolID = "p1" ∧ pa.AccountID = "B")) ∧
        ((∀ pa ∈ (RemoveAccountFromPool none exCreated "p1" "B").1.pool_accounts,
          pa.PoolID ≠ "p1") → p = 0 + 1) ∧
        ((∃ pa ∈ (RemoveAccountFromPool none exCreated "p1" "B").1.pool_accounts,
            pa.PoolID = "p1") →
          (∃ pa ∈ (RemoveAccountFromPool none exCreated "p1" "B").1.pool_accounts,
            pa.PoolID = "p1" ∧ pa.Priority + 1 = p) ∧
          ∀ pa ∈ (RemoveAccountFromPool none exCreated "p1" "B").1.pool_accounts,
            pa.PoolID = "p1" → pa.Priority + 1 ≤ p) :=
  ⟨by decide,
    add_account_priority exService none (RemoveAccountFromPool none exCreated "p1" "B").1
      exRejoined "p1" "B" rfl⟩

/-! ### C8: priorities are unique per pool and grow on append -/

/-- C8: in every database reachable from a store without pools by `CreatePool` (under
generated ids that no membership row carries), `AddAccountToPool` and
`RemoveAccountFromPool` calls, no two membership rows of one pool share a priority, and
every successful `AddAccountToPool` appends a row whose priority is strictly greater than
every priority the pool has at that time. -/
theorem priorities_unique_and_increasing (s : StorageService) (db : DB)
    (h : ReachableMembers s db) :
    db.pool_accounts.Pairwise (fun a b => a.PoolID = b.PoolID → a.Priority ≠ b.Priority) ∧
      ∀ (q : Error) (poolID accountID : String) (db2 : DB),
        AddAccountToPool s q db poolID accountID = (db2, none) →
        ∃ p : Int, db2.pool_accounts = db.pool_accounts ++ [⟨poolID, accountID, p⟩] ∧
          ∀ pa ∈ db.pool_accounts, pa.PoolID = poolID → pa.Priority < p := by
  refine ⟨?_, ?_⟩
  · induction h with
    | init accounts => exact List.Pairwise.nil
    | create q id createdAt updatedAt req _ hfresh ih =>
      rcases CreatePool_cases s q _ id createdAt updatedAt req with
        ⟨hdb, -⟩ | ⟨-, -, -, hpa, -⟩
      · rw [hdb]
        exact ih
      · rw [hpa, List.pairwise_append]
        have hnew : ((req.AccountIDs.enumFrom 0).map
            (fun ka => (⟨id, ka.2, (ka.1 : Int)⟩ : PoolAccount))).Pairwise
            (fun a b => a.PoolID = b.PoolID → a.Priority ≠ b.Priority) := by
          refine List.Pairwise.imp ?_ (enumRows_lt id req.AccountIDs 0)
          intro a b hlt _
          exact ne_of_lt hlt
        refine ⟨ih, hnew, ?_⟩
        intro a ha b hb hid
        obtain ⟨ka, -, rfl⟩ := List.mem_map.1 hb
        exact absurd hid (hfresh a ha)
    | @add db0 q poolID accountID _ ih =>
      cases hres : AddAccountToPool s q db0 poolID accountID with
      | mk db2 e =>
        cases e with
        | some e =>
          have : db2 = db0 := by
            unfold AddAccountToPool at hres
            split at hres
            · cases hres; rfl
            · split at hres
              · cases hres; rfl
              · cases hres
          rw [this]
          exact ih
        | none =>
          obtain ⟨hdb2, -⟩ := AddAccountToPool_ok hres
          rw [hdb2]
          dsimp only
          rw [List.pairwise_append]
          refine ⟨ih, List.pairwise_singleton _ _, ?_⟩
          intro a ha b hb hid
          rw [List.mem_singleton] at hb
          subst hb
          exact ne_of_lt (maxPriority_succ_gt _ poolID a ha hid)
    | remove q poolID accountID _ ih =>
      unfold RemoveAccountFromPool
      split
      · exact ih
      · exact ih.sublist (List.filter_sublist _)
  · intro q poolID accountID db2 hadd
    obtain ⟨hdb2, -⟩ := AddAccountToPool_ok hadd
    exact ⟨_, by rw [hdb2], maxPriority_succ_gt db poolID⟩

/-- C8 at the store `exRejoined`, reached by creating the pool `p1` over `A` and `B`,
removing `B` and adding it again. -/
theorem priorities_unique_and_increasing_witness :
    exRejoined.pool_accounts.Pairwise
        (fun a b => a.PoolID = b.PoolID → a.Priority ≠ b.Priority) ∧
      ∀ (q : Error) (poolID accountID : String) (db2 : DB),
        AddAccountToPool exService q exRejoined poolID accountID = (db2, none) →
        ∃ p : Int, db2.pool_accounts = exRejoined.pool_accounts ++ [⟨poolID, accountID, p⟩] ∧
          ∀ pa ∈ exRejoined.pool_accounts, pa.PoolID = poolID → pa.Priority < p :=
  priorities_unique_and_increasing exService exRejoined
    (ReachableMembers.add none "p1" "B"
      (ReachableMembers.remove none "p1" "B"
        (ReachableMembers.create exCreateQ "p1" 0 0 exRequest
          (ReachableMembers.init exAccounts) (by simp))))

/-! ### C9: the strategy table -/

/-- C9: for every strategy string the policy flags `CreateUnion` builds are those of the
specification's table (`mirror`: all, all, ff; `eplus`: epall, eplus, ff; `epff`: epall,
epff, ff; `union` and any other string: epall, epmfs, ff), the search policy always being
`ff`; and for a pool with accounts whose chunk-adapter commands succeed, the last command
`CreateUnion` runs is the union creation carrying exactly these flags, and `CreateUnion`
returns an error only if that command fails, whatever the strategy. -/
theorem union_policy_table (m : Manager) (w : World) (pool : StoragePool) :
    policyArgs pool.Strategy =
        ["--union-action-policy", (specPolicy pool.Strategy).1,
         "--union-create-policy", (specPolicy pool.Strategy).2.1,
         "--union-search-policy", (specPolicy pool.Strategy).2.2] ∧
      (specPolicy pool.Strategy).2.2 = "ff" ∧
      (pool.Accounts ≠ [] →
        (∀ a ∈ pool.Accounts, pool.EnableChunker = true →
          (w.run (chunkerCmd m pool a)).err = none) →
        ∃ upstreams : String,
          (CreateUnion m w pool).1.getLast? =
            some ["rclone", "config", "create", "union_" ++ pool.ID, "union",
              "--union-upstreams", upstreams, "--config", m.configPath,
              "--union-action-policy", (specPolicy pool.Strategy).1,
              "--union-create-policy", (specPolicy pool.Strategy).2.1,
              "--union-search-policy", (specPolicy pool.Strategy).2.2] ∧
          ((w.run ["rclone", "config", "create", "union_" ++ pool.ID, "union",
              "--union-upstreams", upstreams, "--config", m.configPath,
              "--union-action-policy", (specPolicy pool.Strategy).1,
              "--union-create-policy", (specPolicy pool.Strategy).2.1,
              "--union-search-policy", (specPolicy pool.Strategy).2.2]).err = none →
            (CreateUnion m w pool).2 = none)) := by
  have htable : policyArgs pool.Strategy =
      ["--union-action-policy", (specPolicy pool.Strategy).1,
       "--union-create-policy", (specPolicy pool.Strategy).2.1,
       "--union-search-policy", (specPolicy pool.Strategy).2.2] := by
    unfold policyArgs specPolicy
    by_cases h1 : pool.Strategy = "union"
    · simp [h1]
    · by_cases h2 : pool.Strategy = "eplus"
      · simp [h2]
      · by_cases h3 : pool.Strategy = "epff"
        · simp [h3]
        · by_cases h4 : pool.Strategy = "mirror"
          · simp [h4]
          · simp [h1, h2, h3, h4]
  have hff : (specPolicy pool.Strategy).2.2 = "ff" := by
    unfold specPolicy
    split_ifs <;> rfl
  refine ⟨htable, hff, ?_⟩
  intro hne hch
  refine ⟨" ".intercalate (pool.Accounts.map (specUpstream pool.EnableChunker)), ?_, ?_⟩
  · rw [CreateUnion_ok m w pool hne hch]
    simp [unionCmd, htable]
  · intro hok
    rw [CreateUnion_ok m w pool hne hch]
    have hcmd : unionCmd m pool (pool.Accounts.map (specUpstream pool.EnableChunker)) =
        ["rclone", "config", "create", "union_" ++ pool.ID, "union",
          "--union-upstreams",
          " ".intercalate (pool.Accounts.map (specUpstream pool.EnableChunker)),
          "--config", m.configPath,
          "--union-action-policy", (specPolicy pool.Strategy).1,
          "--union-create-policy", (specPolicy pool.Strategy).2.1,
          "--union-search-policy", (specPolicy pool.Strategy).2.2] := by
      simp [unionCmd, htable]
    rw [hcmd, hok]
    rfl

/-- C9 at the pool `exPool` (strategy `eplus`). -/
theorem union_policy_table_witness :
    specPolicy exPool.Strategy = ("epall", "eplus", "ff") ∧
      ∃ upstreams : String,
        (CreateUnion exService.rclone World.fresh exPool).1.getLast? =
          some ["rclone", "config", "create", "union_" ++ exPool.ID, "union",
            "--union-upstreams", upstreams, "--config", exService.rclone.configPath,
            "--union-action-policy", (specPolicy exPool.Strategy).1,
            "--union-create-policy", (specPolicy exPool.Strategy).2.1,
            "--union-search-policy", (specPolicy exPool.Strategy).2.2] ∧
        ((World.fresh.run ["rclone", "config", "create", "union_" ++ exPool.ID, "union",
            "--union-upstreams", upstreams, "--config", exService.rclone.configPath,
            "--union-action-policy", (specPolicy exPool.Strategy).1,
            "--union-create-policy", (specPolicy exPool.Strategy).2.1,
            "--union-search-policy", (specPolicy exPool.Strategy).2.2]).err = none →
          (CreateUnion exService.rclone World.fresh exPool).2 = none) :=
  ⟨by decide,
    (union_policy_table exService.rclone World.fresh exPool).2.2 (by decide)
      (by intro a _ hc; exact absurd hc (by decide))⟩

/-! ### C10: the upstream list -/

/-- C10: for a pool with a non-empty account list whose chunk-adapter commands all
succeed, the union-creation command `CreateUnion` runs last carries as upstreams one entry
per account, in the order of the pool's account list, `<type>_<id>:` without chunking and
`chunk_<id>:` with chunking, joined by single spaces. -/
theorem union_upstreams_in_order (m : Manager) (w : World) (pool : StoragePool)
    (hne : pool.Accounts ≠ [])
    (hch : ∀ a ∈ pool.Accounts, pool.EnableChunker = true →
      (w.run (chunkerCmd m pool a)).err = none) :
    (CreateUnion m w pool).1.getLast? =
        some (["rclone", "config", "create", "union_" ++ pool.ID, "union",
          "--union-upstreams",
          " ".intercalate (pool.Accounts.map (specUpstream pool.EnableChunker)),
          "--config", m.configPath] ++ policyArgs pool.Strategy) ∧
      (pool.Accounts.map (specUpstream pool.EnableChunker)).length = pool.Accounts.length := by
  rw [CreateUnion_ok m w pool hne hch]
  simp [unionCmd]

/-- C10 at the pools `exPool` (accounts `A`, `B`, no chunking: upstreams
`google_A: microsoft_B:`) and `exChunkedPool` (chunking: `chunk_A: chunk_B:`). -/
theorem union_upstreams_in_order_witness :
    " ".intercalate (exPool.Accounts.map (specUpstream exPool.EnableChunker))
        = "google_A: microsoft_B:" ∧
      " ".intercalate (exChunkedPool.Accounts.map (specUpstream exChunkedPool.EnableChunker))
        = "chunk_A: chunk_B:" ∧
      ((CreateUnion exService.rclone World.fresh exPool).1.getLast? =
        some (["rclone", "config", "create", "union_" ++ exPool.ID, "union",
          "--union-upstreams",
          " ".intercalate (exPool.Accounts.map (specUpstream exPool.EnableChunker)),
          "--config", exService.rclone.configPath] ++ policyArgs exPool.Strategy) ∧
      (exPool.Accounts.map (specUpstream exPool.EnableChunker)).length
        = exPool.Accounts.length) ∧
      ((CreateUnion exService.rclone World.fresh exChunkedPool).1.getLast? =
        some (["rclone", "config", "create", "union_" ++ exChunkedPool.ID, "union",
          "--union-upstreams",
          " ".intercalate
            (exChunkedPool.Accounts.map (specUpstream exChunkedPool.EnableChunker)),
          "--config", exService.rclone.configPath] ++ policyArgs exChunkedPool.Strategy) ∧
      (exChunkedPool.Accounts.map (specUpstream exChunkedPool.EnableChunker)).length
        = exChunkedPool.Accounts.length) :=
  ⟨by decide, by decide,
    union_upstreams_in_order exService.rclone World.fresh exPool (by decide)
      (by intro a _ hc; exact absurd hc (by decide)),
    union_upstreams_in_order exService.rclone World.fresh exChunkedPool (by decide)
      (by intro a _ _; rfl)⟩

/-! ### C11: starting a running pool -/

/-- C11: for a pool whose persisted status is "running", `StartPool` returns the error
"pool already running", runs no command (neither the union composer nor the mount
controller is invoked) and leaves the whole database, status and `mount_path` included,
unchanged. -/
theorem start_running_rejected (s : StorageService) (w : World) (q : StartQ) (db : DB)
    (id : String) (hst : db.poolStatus id = some "running") (hread : q.get.pool = none) :
    StartPool s w q db id = ⟨db, [], some "pool already running"⟩ := by
  obtain ⟨pool, hget, hs, -⟩ := GetPool_of_status hst hread
  unfold StartPool
  rw [hget]
  simp [hs]

/-- C11 at the running pool `p1` of `exStarted`. -/
theorem start_running_rejected_witness :
    exStarted.poolStatus "p1" = some "running" ∧
      StartPool exService World.fresh exStartQ exStarted "p1"
        = ⟨exStarted, [], some "pool already running"⟩ :=
  ⟨by decide,
    start_running_rejected exService World.fresh exStartQ exStarted "p1" (by decide) rfl⟩

/-! ### C12: failures of StartPool -/

/-- C12: for a pool that `GetPool` returns with a status other than "running": when
`CreateUnion` fails with `e`, `StartPool` returns "failed to create union: " followed by
`e`, runs only the commands of `CreateUnion` (no mount probe, no mount command, and the
outcome of `MkdirAll` is never consulted); when `CreateUnion` succeeds and `MountPool`
fails with `e`, `StartPool` returns "failed to mount pool: " followed by `e`.  In both
cases the persisted status afterwards is not "running", it is "error" when the statement
writing it is executed, and `mount_path` is what it was. -/
theorem start_pool_failure (s : StorageService) (w : World) (q : StartQ) (db : DB)
    (id : String) (pool : StoragePool) (hget : GetPool db q.get id = .ok pool)
    (hnr : pool.Status ≠ "running") :
    (∀ e, (CreateUnion s.rclone w pool).2 = some e →
        (StartPool s w q db id).err = some ("failed to create union: " ++ e) ∧
        (StartPool s w q db id).cmds = (CreateUnion s.rclone w pool).1 ∧
        (∀ c ∈ (StartPool s w q db id).cmds,
          c ≠ mountCmd s.rclone pool ∧
          c ≠ ["mountpoint", "-q", filepathJoin s.rclone.mountPath pool.ID]) ∧
        (∀ mk : String → Error, StartPool s ⟨w.run, mk⟩ q db id = StartPool s w q db id) ∧
        (StartPool s w q db id).db.poolStatus id ≠ some "running" ∧
        (q.error.err = none → (StartPool s w q db id).db.poolStatus id = some "error") ∧
        (StartPool s w q db id).db.poolMountPath id = db.poolMountPath id) ∧
      ((CreateUnion s.rclone w pool).2 = none →
        ∀ e, (MountPool s.rclone w pool).2 = some e →
        (StartPool s w q db id).err = some ("failed to mount pool: " ++ e) ∧
        (StartPool s w q db id).cmds =
          (CreateUnion s.rclone w pool).1 ++ (MountPool s.rclone w pool).1 ∧
        (StartPool s w q db id).db.poolStatus id ≠ some "running" ∧
        (q.error.err = none → (StartPool s w q db id).db.poolStatus id = some "error") ∧
        (StartPool s w q db id).db.poolMountPath id = db.poolMountPath id) := by
  obtain ⟨row, hfind, -, hstatus, -⟩ := GetPool_ok hget
  have hrow : row.Status ≠ "running" := hstatus ▸ hnr
  obtain ⟨hs1, hs2, hs3⟩ := status_after_error_writes hfind hrow q.starting q.error
  refine ⟨?_, ?_⟩
  · intro e he
    have hrun : ∀ w2 : World, w2.run = w.run → StartPool s w2 q db id =
        ⟨updatePoolStatus (updatePoolStatus db q.starting id "starting") q.error id "error",
          (CreateUnion s.rclone w pool).1, some ("failed to create union: " ++ e)⟩ := by
      intro w2 hw2
      have hcu : CreateUnion s.rclone w2 pool = CreateUnion s.rclone w pool := by
        cases w2
        cases w
        simp only at hw2
        subst hw2
        exact CreateUnion_run _ _ _ _ _
      unfold StartPool
      rw [hget]
      simp only [hnr, if_false, hcu]
      cases hcu2 : CreateUnion s.rclone w pool with
      | mk c1 e1 =>
        rw [hcu2] at he
        simp only at he
        subst he
        rfl
    rw [hrun w rfl]
    refine ⟨rfl, rfl, ?_, ?_, hs1, hs2, hs3⟩
    · intro c hc
      obtain ⟨rest, hrest⟩ := CreateUnion_cmds s.rclone w pool c hc
      subst hrest
      constructor
      · simp [mountCmd]
      · simp
    · intro mk
      exact hrun ⟨w.run, mk⟩ rfl
  · intro hok e he
    have hrun : StartPool s w q db id =
        ⟨updatePoolStatus (updatePoolStatus db q.starting id "starting") q.error id "error",
          (CreateUnion s.rclone w pool).1 ++ (MountPool s.rclone w pool).1,
          some ("failed to mount pool: " ++ e)⟩ := by
      unfold StartPool
      rw [hget]
      simp only [hnr, if_false]
      cases hcu2 : CreateUnion s.rclone w pool with
      | mk c1 e1 =>
        rw [hcu2] at hok
        simp only at hok
        subst hok
        cases hmp : MountPool s.rclone w pool with
        | mk c2 e2 =>
          rw [hmp] at he
          simp only at he
          subst he
          rfl
    rw [hrun]
    exact ⟨rfl, rfl, hs1, hs2, hs3⟩

/-- C12 at the stopped pool `p1` of `exCreated`: in a world where the union creation
fails, and in a world where the mount point is already mounted. -/
theorem start_pool_failure_witness :
    ((StartPool exService World.noUnion exStartQ exCreated "p1").err
        = some ("failed to create union: " ++
            "failed to create union: exit status 1 - boom") ∧
      (StartPool exService World.noUnion exStartQ exCreated "p1").cmds
        = (CreateUnion exService.rclone World.noUnion exPool).1 ∧
      (StartPool exService World.noUnion exStartQ exCreated "p1").db.poolStatus "p1"
        = some "error" ∧
      (StartPool exService World.noUnion exStartQ exCreated "p1").db.poolMountPath "p1"
        = exCreated.poolMountPath "p1") ∧
    ((StartPool exService World.mounted exStartQ exCreated "p1").err
        = some ("failed to mount pool: " ++ "already mounted") ∧
      (StartPool exService World.mounted exStartQ exCreated "p1").db.poolStatus "p1"
        = some "error" ∧
      (StartPool exService World.mounted exStartQ exCreated "p1").db.poolMountPath "p1"
        = exCreated.poolMountPath "p1") ∧
    exCreated.poolMountPath "p1" = some none :=
  ⟨⟨((start_pool_failure exService World.noUnion exStartQ exCreated "p1" exPool rfl
        (by decide)).1 "failed to create union: exit status 1 - boom" rfl).1,
      ((start_pool_failure exService World.noUnion exStartQ exCreated "p1" exPool rfl
        (by decide)).1 "failed to create union: exit status 1 - boom" rfl).2.1,
      ((start_pool_failure exService World.noUnion exStartQ exCreated "p1" exPool rfl
        (by decide)).1 "failed to create union: exit status 1 - boom" rfl).2.2.2.2.2.1 rfl,
      ((start_pool_failure exService World.noUnion exStartQ exCreated "p1" exPool rfl
        (by decide)).1 "failed to create union: exit status 1 - boom" rfl).2.2.2.2.2.2⟩,
    ⟨((start_pool_failure exService World.mounted exStartQ exCreated "p1" exPool rfl
        (by decide)).2 rfl "already mounted" rfl).1,
      ((start_pool_failure exService World.mounted exStartQ exCreated "p1" exPool rfl
        (by decide)).2 rfl "already mounted" rfl).2.2.2.1 rfl,
      ((start_pool_failure exService World.mounted exStartQ exCreated "p1" exPool rfl
        (by decide)).2 rfl "already mounted" rfl).2.2.2.2⟩,
    by decide⟩

/-! ### C13: removal of the union configuration by StopPool -/

/-- C13, as stated, fails: the pool `p1` of `exStarted` is running, both unmount commands
fail, and `StopPool` returns the unmount error without running the configuration removal
for `union_p1`. -/
theorem stop_deletes_union_always_counterexample :
    exStarted.poolStatus "p1" = some "running" ∧
      (StopPool exService World.broken exStopQ exStarted "p1").err
        = some "failed to unmount pool: exit status 1" ∧
      (StopPool exService World.broken exStopQ exStarted "p1").cmds
        = [["fusermount", "-u", "/mnt/pooled-storage/p1"],
           ["umount", "/mnt/pooled-storage/p1"]] ∧
      (DeleteUnion exService.rclone World.broken "p1").1
        = [["rclone", "config", "delete", "union_p1", "--config", "/cfg/rclone.conf"]] ∧
      ["rclone", "config", "delete", "union_p1", "--config", "/cfg/rclone.conf"]
        ∉ (StopPool exService World.broken exStopQ exStarted "p1").cmds := by
  decide

/-- C13, amended: for a pool whose persisted status is "running", `StopPool` runs the
removal of the union's configuration (the command of `DeleteUnion` for that pool id)
exactly when the unmount succeeded, that is when `fusermount -u` or else `umount`
succeeded; after a failed unmount it returns without running it. -/
theorem stop_deletes_union_iff (s : StorageService) (w : World) (q : StopQ) (db : DB)
    (id : String) (hst : db.poolStatus id = some "running") (hread : q.get.pool = none) :
    (DeleteUnion s.rclone w id).1 =
        [["rclone", "config", "delete", "union_" ++ id, "--config", s.rclone.configPath]] ∧
      (["rclone", "config", "delete", "union_" ++ id, "--config", s.rclone.configPath]
          ∈ (StopPool s w q db id).cmds ↔
        ((w.run ["fusermount", "-u", filepathJoin s.rclone.mountPath id]).err = none ∨
          (w.run ["umount", filepathJoin s.rclone.mountPath id]).err = none)) := by
  refine ⟨rfl, ?_⟩
  rw [StopPool_running hst hread]
  by_cases hu : (w.run ["fusermount", "-u", filepathJoin s.rclone.mountPath id]).err = none ∨
      (w.run ["umount", filepathJoin s.rclone.mountPath id]).err = none
  · simp [hu]
  · simp [hu]

/-- The amended C13 at the running pool `p1` of `exStarted`, in a world where the unmount
succeeds: the configuration removal is run. -/
theorem stop_deletes_union_iff_witness :
    ["rclone", "config", "delete", "union_" ++ "p1", "--config", exService.rclone.configPath]
      ∈ (StopPool exService World.allOk exStopQ exStarted "p1").cmds :=
  ((stop_deletes_union_iff exService World.allOk exStopQ exStarted "p1" (by decide) rfl).2).2
    (Or.inl rfl)

/-! ### C14: outcome of StopPool on a running pool -/

/-- C14: for a pool whose persisted status is "running", with the database executing the
final update, `StopPool` succeeds exactly when the unmount succeeds (`fusermount -u` or
else `umount`); then the status is "stopped" and `mount_path` is NULL, whatever the
outcome of the configuration removal; when the unmount fails the database is unchanged,
so the status is still "running" and `mount_path` is what it was. -/
theorem stop_pool_outcome (s : StorageService) (w : World) (q : StopQ) (db : DB)
    (id : String) (hst : db.poolStatus id = some "running") (hread : q.get.pool = none)
    (hwrite : q.stopped.err = none) :
    ((StopPool s w q db id).err = none ↔
        ((w.run ["fusermount", "-u", filepathJoin s.rclone.mountPath id]).err = none ∨
          (w.run ["umount", filepathJoin s.rclone.mountPath id]).err = none)) ∧
      ((StopPool s w q db id).err = none →
        (StopPool s w q db id).db.poolStatus id = some "stopped" ∧
        (StopPool s w q db id).db.poolMountPath id = some none) ∧
      ((StopPool s w q db id).err ≠ none →
        (StopPool s w q db id).db = db ∧
        (StopPool s w q db id).db.poolStatus id = some "running" ∧
        (StopPool s w q db id).db.poolMountPath id = db.poolMountPath id) := by
  have hfind : ∃ row, db.findPool id = some row := by
    unfold DB.poolStatus at hst
    cases hf : db.findPool id with
    | none => simp [hf] at hst
    | some row => exact ⟨row, rfl⟩
  obtain ⟨row, hrow⟩ := hfind
  rw [StopPool_running hst hread]
  by_cases hu : (w.run ["fusermount", "-u", filepathJoin s.rclone.mountPath id]).err = none ∨
      (w.run ["umount", filepathJoin s.rclone.mountPath id]).err = none
  · rw [if_pos hu]
    simp [hu, hwrite, DB.poolStatus, DB.poolMountPath, findPool_setStopped, hrow]
  · have h2 : (w.run ["umount", filepathJoin s.rclone.mountPath id]).err ≠ none :=
      fun h => hu (Or.inr h)
    obtain ⟨e2, he2⟩ := Option.ne_none_iff_exists'.1 h2
    rw [if_neg hu]
    refine ⟨?_, ?_, ?_⟩
    · constructor
      · intro h
        dsimp only at h
        rw [he2] at h
        cases h
      · intro h
        exact absurd h hu
    · intro h
      dsimp only at h
      rw [he2] at h
      cases h
    · intro _
      exact ⟨rfl, hst, rfl⟩

/-- C14 at the running pool `p1` of `exStarted`: with the unmount succeeding but the
configuration removal failing the pool ends stopped without mount path; with every
command failing it stays as it was. -/
theorem stop_pool_outcome_witness :
    ((StopPool exService ⟨fun cmd => if cmd.head? = some "rclone" then
          ⟨some "exit status 1", ""⟩ else ⟨none, ""⟩, fun _ => none⟩
          exStopQ exStarted "p1").db.poolStatus "p1" = some "stopped" ∧
      (StopPool exService ⟨fun cmd => if cmd.head? = some "rclone" then
          ⟨some "exit status 1", ""⟩ else ⟨none, ""⟩, fun _ => none⟩
          exStopQ exStarted "p1").db.poolMountPath "p1" = some none) ∧
    ((StopPool exService World.broken exStopQ exStarted "p1").db = exStarted ∧
      (StopPool exService World.broken exStopQ exStarted "p1").db.poolStatus "p1"
        = some "running" ∧
      (StopPool exService World.broken exStopQ exStarted "p1").db.poolMountPath "p1"
        = exStarted.poolMountPath "p1") :=
  ⟨(stop_pool_outcome exService ⟨fun cmd => if cmd.head? = some "rclone" then
        ⟨some "exit status 1", ""⟩ else ⟨none, ""⟩, fun _ => none⟩
      exStopQ exStarted "p1" (by decide) rfl rfl).2.1 (by decide),
    (stop_pool_outcome exService World.broken exStopQ exStarted "p1"
      (by decide) rfl rfl).2.2 (by decide)⟩

/-! ### C15: the two unmount mechanisms -/

/-- C15: `UnmountPool` returns success exactly when `fusermount -u` succeeds or `umount`
succeeds; when `fusermount -u` succeeds it runs that command alone; it runs `umount`
(after it) exactly when `fusermount -u` fails, and then returns the error of `umount`;
so it returns an error only when both fail. -/
theorem unmount_fallback (m : Manager) (w : World) (pool : StoragePool) :
    ((UnmountPool m w pool).2 = none ↔
        ((w.run ["fusermount", "-u", filepathJoin m.mountPath pool.ID]).err = none ∨
          (w.run ["umount", filepathJoin m.mountPath pool.ID]).err = none)) ∧
      ((w.run ["fusermount", "-u", filepathJoin m.mountPath pool.ID]).err = none →
        UnmountPool m w pool =
          ([["fusermount", "-u", filepathJoin m.mountPath pool.ID]], none)) ∧
      ((w.run ["fusermount", "-u", filepathJoin m.mountPath pool.ID]).err ≠ none →
        UnmountPool m w pool =
          ([["fusermount", "-u", filepathJoin m.mountPath pool.ID],
            ["umount", filepathJoin m.mountPath pool.ID]],
            (w.run ["umount", filepathJoin m.mountPath pool.ID]).err)) ∧
      (["umount", filepathJoin m.mountPath pool.ID] ∈ (UnmountPool m w pool).1 ↔
        (w.run ["fusermount", "-u", filepathJoin m.mountPath pool.ID]).err ≠ none) ∧
      ((UnmountPool m w pool).2 ≠ none ↔
        ((w.run ["fusermount", "-u", filepathJoin m.mountPath pool.ID]).err ≠ none ∧
          (w.run ["umount", filepathJoin m.mountPath pool.ID]).err ≠ none)) := by
  rw [UnmountPool_eq]
  by_cases h1 : (w.run ["fusermount", "-u", filepathJoin m.mountPath pool.ID]).err = none
  · simp [h1]
  · simp [h1]

/-- C15 in a world where `fusermount -u` fails and `umount` succeeds: both commands are
run and the result is success. -/
theorem unmount_fallback_witness :
    UnmountPool exService.rclone
        ⟨fun cmd => if cmd.head? = some "fusermount" then ⟨some "exit status 1", ""⟩
          else ⟨none, ""⟩, fun _ => none⟩ exPool =
      ([["fusermount", "-u", filepathJoin exService.rclone.mountPath exPool.ID],
        ["umount", filepathJoin exService.rclone.mountPath exPool.ID]],
        (none : Error)) :=
  (unmount_fallback exService.rclone
      ⟨fun cmd => if cmd.head? = some "fusermount" then ⟨some "exit status 1", ""⟩
        else ⟨none, ""⟩, fun _ => none⟩ exPool).2.2.1 (by decide)

/-! ### C16: what DeletePool removes -/

/-- C16 at its failing input: on the default connection (foreign keys not enforced) the
pool `p1` of `exCreated` has the membership rows `(p1, A, 0)` and `(p1, B, 1)`;
`DeletePool` succeeds and removes the pool row, and both membership rows are still in
the table afterwards. -/
theorem delete_pool_leaves_memberships :
    exService.foreignKeys = false ∧
      (DeletePool exService World.fresh exDeleteQ exCreated "p1").err = none ∧
      (DeletePool exService World.fresh exDeleteQ exCreated "p1").db.storage_pools = [] ∧
      (DeletePool exService World.fresh exDeleteQ exCreated "p1").db.pool_accounts
        = [⟨"p1", "A", 0⟩, ⟨"p1", "B", 1⟩] := by
  decide

/-! ### C17: RefreshAllQuotas -/

/-- On a database that does not let a statement write while a cursor is open, as the one
`InitDB` opens, `RefreshAllQuotas` (its listing succeeding) returns no error, runs one
quota query per account whose status is "active", in listing order, whatever the earlier
queries gave, and leaves the whole database as it was: every `UPDATE` fails and its error
is dropped. -/
theorem RefreshAllQuotas_locked (s : StatsService) (w : World)
    (unmarshal : String → Except String (Int × Int)) (q : RefreshQ) (db : DB)
    (hs : s.writeDuringRead = false) (hlist : q.listing = none) :
    RefreshAllQuotas s w unmarshal q db =
      ⟨db, (db.accounts.filter (fun a => a.Status = "active")).map
        (fun a => aboutCmd s.rclone a.ID a.Type_), none⟩ := by
  unfold RefreshAllQuotas
  rw [hlist, hs]
  dsimp only
  rw [refreshLoop_locked, List.map_map]
  rfl

/-- On a database that lets the updates through (a write-ahead journal, every `UPDATE`
executed), with unique account ids and the listing succeeding, `RefreshAllQuotas` does
what the specification says: no error, one quota query per active account in listing
order, every account row mapped by `specRefreshed`, pools and memberships untouched. -/
theorem RefreshAllQuotas_writable (s : StatsService) (w : World)
    (unmarshal : String → Except String (Int × Int)) (q : RefreshQ) (db : DB)
    (hs : s.writeDuringRead = true) (hup : ∀ id, q.update id = none)
    (hpk : (db.accounts.map (fun a => a.ID)).Nodup) (hlist : q.listing = none) :
    (RefreshAllQuotas s w unmarshal q db).err = none ∧
      (RefreshAllQuotas s w unmarshal q db).cmds =
        (db.accounts.filter (fun a => a.Status = "active")).map
          (fun a => aboutCmd s.rclone a.ID a.Type_) ∧
      (RefreshAllQuotas s w unmarshal q db).db.accounts =
        db.accounts.map (specRefreshed s.rclone w unmarshal) ∧
      (RefreshAllQuotas s w unmarshal q db).db.storage_pools = db.storage_pools ∧
      (RefreshAllQuotas s w unmarshal q db).db.pool_accounts = db.pool_accounts := by
  have hnd : (((db.accounts.filter (fun a => decide (a.Status = "active"))).map
      (fun a => (a.ID, a.Type_))).map Prod.fst).Nodup := by
    rw [List.map_map]
    exact ((List.filter_sublist _).map _).nodup hpk
  obtain ⟨h1, h2, h3, h4⟩ :=
    refreshLoop_spec s.rclone w unmarshal s.writeDuringRead q.update _ db hnd
  unfold RefreshAllQuotas
  rw [hlist]
  dsimp only
  refine ⟨rfl, ?_, ?_, h2, h3⟩
  · rw [h4, List.map_map]
    rfl
  · rw [h1]
    apply List.map_congr_left
    intro a ha
    by_cases hact : a.Status = "active"
    · have hfind : ((db.accounts.filter (fun a => decide (a.Status = "active"))).map
          (fun a => (a.ID, a.Type_))).find? (fun k => decide (k.1 = a.ID))
          = some (a.ID, a.Type_) := by
        cases hf : ((db.accounts.filter (fun a => decide (a.Status = "active"))).map
            (fun a => (a.ID, a.Type_))).find? (fun k => decide (k.1 = a.ID)) with
        | none =>
          rw [List.find?_eq_none] at hf
          exact absurd (by simp) (hf (a.ID, a.Type_)
            (List.mem_map.2 ⟨a, List.mem_filter.2 ⟨ha, by simpa using hact⟩, rfl⟩))
        | some k =>
          have hk := List.mem_of_find?_eq_some hf
          have hk1 : k.1 = a.ID := by simpa using List.find?_some hf
          obtain ⟨b, hb, rfl⟩ := List.mem_map.1 hk
          have hba : b = a :=
            List.inj_on_of_nodup_map hpk (List.mem_of_mem_filter hb) ha hk1
          rw [hba]
      rw [hfind]
      simp only [specRefreshed, hact, if_true, applyQuota, execUnderCursor, hs, hup]
    · have hfind : ((db.accounts.filter (fun a => decide (a.Status = "active"))).map
          (fun a => (a.ID, a.Type_))).find? (fun k => decide (k.1 = a.ID)) = none := by
        rw [List.find?_eq_none]
        intro k hk hk1
        obtain ⟨b, hb, rfl⟩ := List.mem_map.1 hk
        have hba : b = a :=
          List.inj_on_of_nodup_map hpk (List.mem_of_mem_filter hb) ha (by simpa using hk1)
        rw [hba] at hb
        exact hact (by simpa using (List.mem_filter.1 hb).2)
      rw [hfind]
      simp [specRefreshed, hact]

/-- C17 at its failing input: on the database `InitDB` opens, with accounts `C` (active,
query fails), `B` (inactive) and `A` (active, 40 of 100; its query succeeds with total
200 and used 10), `RefreshAllQuotas` returns no error, queries `C` and then `A`, and
leaves `A` at 100 and 40, where the specification's row for `A` carries 200 and 10. -/
theorem refresh_all_quotas_persists_nothing :
    exStatsService.writeDuringRead = false ∧
      GetQuota exStatsService.rclone World.quotaOfCFails exUnmarshal "A" "google"
        = .ok (200, 10) ∧
      (RefreshAllQuotas exStatsService World.quotaOfCFails exUnmarshal
        ⟨none, fun _ => none⟩ ⟨exThreeAccounts, [], []⟩).err = none ∧
      (RefreshAllQuotas exStatsService World.quotaOfCFails exUnmarshal
        ⟨none, fun _ => none⟩ ⟨exThreeAccounts, [], []⟩).cmds
        = [["rclone", "about", "google_C:", "--json", "--config", "/cfg/rclone.conf"],
           ["rclone", "about", "google_A:", "--json", "--config", "/cfg/rclone.conf"]] ∧
      (RefreshAllQuotas exStatsService World.quotaOfCFails exUnmarshal
        ⟨none, fun _ => none⟩ ⟨exThreeAccounts, [], []⟩).db.accounts.map
        (fun a => (a.ID, a.QuotaTotal, a.QuotaUsed))
        = [("C", 5, 5), ("B", 50, 50), ("A", 100, 40)] ∧
      (exThreeAccounts.map (specRefreshed exStatsService.rclone World.quotaOfCFails
        exUnmarshal)).map (fun a => (a.ID, a.QuotaTotal, a.QuotaUsed))
        = [("C", 5, 5), ("B", 50, 50), ("A", 200, 10)] := by
  refine ⟨rfl, rfl, by decide, by decide, by decide, by decide⟩

/-! ### C18: CreatePool is all-or-nothing -/

/-- C18: `CreatePool` either returns an error and leaves the database unchanged, or
returns a pool and adds exactly the pool row (status "stopped", `mount_path` NULL, chunk
size "100M" when the request's is empty) and one membership row per listed account, in
order, with its index as priority; a request that lists an account id twice is of the
first kind; and whether the call succeeds does not depend on the request's strategy. -/
theorem create_pool_atomic (s : StorageService) (q : CreateQ) (db : DB) (id : String)
    (createdAt updatedAt : Nat) (req : CreatePoolRequest) :
    (((CreatePool s q db id createdAt updatedAt req).1 = db ∧
        ∃ e, (CreatePool s q db id createdAt updatedAt req).2 = .error e) ∨
      ((∃ pool, (CreatePool s q db id createdAt updatedAt req).2 = .ok pool) ∧
        (CreatePool s q db id createdAt updatedAt req).1 =
          ⟨db.accounts,
            db.storage_pools ++
              [⟨id, req.Name, req.Strategy, req.EnableChunker, req.AllowLargeFiles,
                if req.ChunkSize = "" then "100M" else req.ChunkSize, none, "stopped",
                createdAt, updatedAt⟩],
            db.pool_accounts ++ req.AccountIDs.enum.map
              (fun ka => (⟨id, ka.2, (ka.1 : Int)⟩ : PoolAccount))⟩)) ∧
      (¬ req.AccountIDs.Nodup →
        (CreatePool s q db id createdAt updatedAt req).1 = db ∧
          ∃ e, (CreatePool s q db id createdAt updatedAt req).2 = .error e) ∧
      (∀ strategy : String,
        (∃ pool, (CreatePool s q db id createdAt updatedAt req).2 = .ok pool) ↔
          ∃ pool, (CreatePool s q db id createdAt updatedAt
            { req with Strategy := strategy }).2 = .ok pool) := by
  have hcases := CreatePool_cases s q db id createdAt updatedAt req
  refine ⟨?_, ?_, ?_⟩
  · rcases hcases with h | ⟨hok, ha, hp, hpa, -⟩
    · exact Or.inl h
    · right
      refine ⟨hok, ?_⟩
      cases hdb : (CreatePool s q db id createdAt updatedAt req).1 with
      | mk accounts pools pas =>
        rw [hdb] at ha hp hpa
        simp only at ha hp hpa
        rw [ha, hp, hpa]
        rfl
  · intro hdup
    rcases hcases with h | ⟨hok, -⟩
    · exact h
    · exact absurd ((CreatePool_succeeds_iff s q db id createdAt updatedAt req).1 hok).2.2.2.2.1
        hdup
  · intro strategy
    rw [CreatePool_succeeds_iff, CreatePool_succeeds_iff]

/-- C18 at the request `exDupRequest`, which lists `A` twice under an unknown strategy:
it fails and the store is as before; with `B` in place of the second `A` the same request
succeeds. -/
theorem create_pool_atomic_witness :
    ((CreatePool exService exCreateQ ⟨exAccounts, [], []⟩ "p1" 0 0 exDupRequest).1
        = ⟨exAccounts, [], []⟩ ∧
      ∃ e, (CreatePool exService exCreateQ ⟨exAccounts, [], []⟩ "p1" 0 0 exDupRequest).2
        = .error e) ∧
    (CreatePool exService exCreateQ ⟨exAccounts, [], []⟩ "p1" 0 0
        { exDupRequest with AccountIDs := ["A", "B"] }).1
      = ⟨exAccounts,
          [⟨"p1", "pool", "no-such-strategy", false, false, "100M", none, "stopped", 0, 0⟩],
          [⟨"p1", "A", 0⟩, ⟨"p1", "B", 1⟩]⟩ :=
  ⟨(create_pool_atomic exService exCreateQ ⟨exAccounts, [], []⟩ "p1" 0 0 exDupRequest).2.1
      (by decide),
    by decide⟩

/-! ### C19: the global totals -/

/-- C19: when the account listing succeeds, the global view of `GetStorageStats` has, in
64-bit integer arithmetic, `TotalCapacity` equal to the sum of the accounts'
`quota_total`, `TotalUsed` equal to the sum of their `quota_used`, `TotalFree` equal to
`TotalCapacity - TotalUsed`; every per-account entry has `QuotaFree` equal to its
`quota_total - quota_used`; hence `TotalFree` is the sum of the per-account `QuotaFree`
values.  Where a sum stays within the 64-bit range the equality is one of integers. -/
theorem storage_stats_totals (db : DB) (qPool : Error) (qAgg : String → Error) :
    (GetStorageStats db none qPool qAgg).TotalCapacity =
        wrap64 (db.accounts.map (fun a => a.QuotaTotal)).sum ∧
      (GetStorageStats db none qPool qAgg).TotalUsed =
        wrap64 (db.accounts.map (fun a => a.QuotaUsed)).sum ∧
      (GetStorageStats db none qPool qAgg).TotalFree =
        wrap64 ((GetStorageStats db none qPool qAgg).TotalCapacity -
          (GetStorageStats db none qPool qAgg).TotalUsed) ∧
      (∀ e ∈ (GetStorageStats db none qPool qAgg).AccountStats,
        e.QuotaFree = wrap64 (e.QuotaTotal - e.QuotaUsed)) ∧
      (GetStorageStats db none qPool qAgg).TotalFree =
        wrap64 ((GetStorageStats db none qPool qAgg).AccountStats.map
          (fun e => e.QuotaFree)).sum ∧
      ((-2 ^ 63 ≤ (db.accounts.map (fun a => a.QuotaTotal)).sum ∧
          (db.accounts.map (fun a => a.QuotaTotal)).sum < 2 ^ 63) →
        (GetStorageStats db none qPool qAgg).TotalCapacity =
          (db.accounts.map (fun a => a.QuotaTotal)).sum) ∧
      ((-2 ^ 63 ≤ (db.accounts.map (fun a => a.QuotaUsed)).sum ∧
          (db.accounts.map (fun a => a.QuotaUsed)).sum < 2 ^ 63) →
        (GetStorageStats db none qPool qAgg).TotalUsed =
          (db.accounts.map (fun a => a.QuotaUsed)).sum) := by
  obtain ⟨hacc, hcap, hused, hfree⟩ := GetStorageStats_fields db qPool qAgg
  have hcap2 : (GetStorageStats db none qPool qAgg).TotalCapacity =
      wrap64 (db.accounts.map (fun a => a.QuotaTotal)).sum := by
    rw [hcap, sumQuotas_eq]
    dsimp only
    rw [hacc, List.map_map]
    exact congrArg wrap64 (sorted_accounts_sum db (fun a => a.QuotaTotal))
  have hused2 : (GetStorageStats db none qPool qAgg).TotalUsed =
      wrap64 (db.accounts.map (fun a => a.QuotaUsed)).sum := by
    rw [hused, sumQuotas_eq]
    dsimp only
    rw [hacc, List.map_map]
    exact congrArg wrap64 (sorted_accounts_sum db (fun a => a.QuotaUsed))
  refine ⟨hcap2, hused2, hfree, ?_, ?_, ?_, ?_⟩
  · intro e he
    rw [hacc] at he
    obtain ⟨a, -, rfl⟩ := List.mem_map.1 he
    rfl
  · rw [hfree, hcap2, hused2, wrap64_sub, hacc, List.map_map]
    have hfun : (fun e : AccountStats => e.QuotaFree) ∘ accountStat =
        wrap64 ∘ (fun a : Account => a.QuotaTotal - a.QuotaUsed) := rfl
    rw [hfun, ← List.map_map, wrap64_sum_wrap, sorted_accounts_sum]
    congr 1
    induction db.accounts with
    | nil => rfl
    | cons a rest ih =>
      simp only [List.map_cons, List.sum_cons] at ih ⊢
      omega
  · rintro ⟨h1, h2⟩
    rw [hcap2, wrap64_of_range _ h1 h2]
  · rintro ⟨h1, h2⟩
    rw [hused2, wrap64_of_range _ h1 h2]

/-- C19 at the accounts `A` (40 of 100) and `B` (50 of 50): capacity 150 and used 90,
both the plain sums. -/
theorem storage_stats_totals_witness :
    (GetStorageStats ⟨exAccounts, [], []⟩ none none (fun _ => none)).TotalCapacity = 150 ∧
      (GetStorageStats ⟨exAccounts, [], []⟩ none none (fun _ => none)).TotalUsed = 90 ∧
      (GetStorageStats ⟨exAccounts, [], []⟩ none none (fun _ => none)).TotalCapacity =
        (exAccounts.map (fun a => a.QuotaTotal)).sum :=
  ⟨(storage_stats_totals ⟨exAccounts, [], []⟩ none (fun _ => none)).1.trans (by decide),
    (storage_stats_totals ⟨exAccounts, [], []⟩ none (fun _ => none)).2.1.trans (by decide),
    (storage_stats_totals ⟨exAccounts, [], []⟩ none (fun _ => none)).2.2.2.2.2.1
      (by decide)⟩

/-! ### C20: the persisted mount path -/

/-- C20 at its failing input: with `MOUNT_PATH=/data/mounts`, `StartPool` on the pool
`p1` of `exCreated` succeeds; `MountPool` attached the union at `/data/mounts/p1`, which
is also the path `UnmountPool` detaches, and the persisted `mount_path` is
`/mnt/pooled-storage/p1`. -/
theorem start_pool_persists_default_root :
    exCustomService.rclone.mountPath = "/data/mounts" ∧
      (StartPool exCustomService World.fresh exStartQ exCreated "p1").err = none ∧
      (StartPool exCustomService World.fresh exStartQ exCreated "p1").cmds.getLast?
        = some ["rclone", "mount", "union_p1:", "/data/mounts/p1", "--config",
            "/cfg/rclone.conf", "--allow-other", "--vfs-cache-mode", "writes", "--daemon"] ∧
      (UnmountPool exCustomService.rclone World.fresh exPool).1
        = [["fusermount", "-u", "/data/mounts/p1"]] ∧
      (StartPool exCustomService World.fresh exStartQ exCreated "p1").db.poolMountPath "p1"
        = some (some "/mnt/pooled-storage/p1") ∧
      (StartPool exCustomService World.fresh exStartQ exCreated "p1").db.poolMountPath "p1"
        ≠ some (some (filepathJoin exCustomService.rclone.mountPath "p1")) := by
  decide

end PooledStorage
